import Mathlib

/-!
# Planck REPL front end (`planck-c/repl.c`): shallow embedding and properties

A C string (`char *`) is modelled as `Option String`: `none` is the `NULL`
pointer and `some s` a NUL-terminated buffer whose contents are the characters
of `s`, one Lean character per C `char`.  `strlen` is `String.length`,
`strcmp(a, b) == 0` is equality of contents.  `free` does not change the value
of a pointer, so a freed field keeps its last contents in the model.

The collaborators that live outside `repl.c` (the form reader, the evaluator,
the line editor history, the socket transport, the timer service) are
parameters or logs of the calls made to them.
-/

namespace Planck

/-! ## Strings -/

/-- The string made of `n` copies of the character `c` (`memset(p, c, n)`). -/
def str_fill (c : Char) (n : Nat) : String := String.mk (List.replicate n c)

/-- Writing `'\0'` at index `n` of a buffer: the first `n` characters remain. -/
def str_truncate (s : String) (n : Nat) : String := String.mk (s.data.take n)

/-- Modelled from the spec: `str_concat` of `str.h` is absent from the sources;
the primary prompt is `"<namespace>=> "`, so it returns the concatenation of
its two arguments in a fresh buffer. -/
def str_concat (a b : String) : String := a ++ b

/-- Modelled from the spec: `str_has_suffix` of `str.h` is absent from the
sources; "a trailing CR before LF is trimmed" is coded as
`str_has_suffix(data, "\r\n") == 0`, so it returns `0` exactly when `s` ends
with `suffix`, and a non-zero value otherwise. -/
def str_has_suffix (s suffix : String) : Int :=
  if suffix.data.isSuffixOf s.data then 0 else -1

/-- The C library `isspace` in the default locale. -/
def isspace (c : Char) : Bool :=
  c = ' ' || c = '\t' || c = '\n' || c = '\r' || c.toNat = 11 || c.toNat = 12

/-- Source `is_whitespace`: every character of `s` is a space character. -/
def is_whitespace (s : String) : Bool := s.data.all isspace

/-- Source `is_exit_command`. -/
def is_exit_command (input : String) (is_socket_repl : Bool) : Bool :=
  input = ":cljs/quit" ||
  input = "quit" ||
  input = "exit" ||
  input = "\x04" ||
  (is_socket_repl && input = ":repl/quit")

/-! ## Session state and prompts -/

/-- The fields of the global `config` that `repl.c` reads. -/
structure Config where
  dumb_terminal : Bool
  quiet : Bool
  theme : String
  deriving DecidableEq

/-- Source `struct repl`.  `num_previous_lines` is a `size_t`; it counts
allocated lines, so it stays far below `2^64` and is a natural number here. -/
structure repl_t where
  current_ns : String
  current_prompt : Option String
  history_path : Option String
  input : Option String
  indent_space_count : Int
  num_previous_lines : Nat
  previous_lines : List String
  session_id : Int
  deriving DecidableEq

/-- Source `make_repl`. -/
def make_repl : repl_t :=
  { current_ns := "cljs.user"
    current_prompt := none
    history_path := none
    input := none
    indent_space_count := 0
    num_previous_lines := 0
    previous_lines := []
    session_id := 0 }

/-- Source `empty_previous_lines`. -/
def empty_previous_lines (repl : repl_t) : repl_t :=
  { repl with num_previous_lines := 0, previous_lines := [] }

/-- Source macro `SEC_PROMPT`. -/
def SEC_PROMPT : String := "#_=> "

/-- Source `form_prompt`. -/
def form_prompt (config : Config) (repl : repl_t) (is_secondary : Bool) : Option String :=
  let prefix_min_len : Nat := 2
  let current_ns := repl.current_ns
  let dumb_terminal : Bool := repl.session_id != 0 || config.dumb_terminal
  if !is_secondary then
    if current_ns.length < prefix_min_len && !config.dumb_terminal then
      some (" " ++ current_ns ++ "=> ")
    else
      some (str_concat current_ns "=> ")
  else
    if !dumb_terminal then
      let ns_len := current_ns.length
      let ns_len_extra := if ns_len < prefix_min_len then 0 else ns_len - prefix_min_len
      some (str_fill ' ' ns_len_extra ++ SEC_PROMPT)
    else
      none

/-! ## The input accumulator -/

/-- One call `evaluate_source("text", source, true, true, set_ns, theme, true,
session_id)`; the constant arguments are not recorded. -/
structure EvalCall where
  source : String
  set_ns : String
  theme : String
  session_id : Int
  deriving DecidableEq

/-- The collaborators called by `process_line`.  `σ` is the state of the
evaluation engine.  `evaluate_source` receives the engine state and the global
`exit_value` and returns both as the evaluation leaves them. -/
structure Externs (σ : Type) where
  is_readable : String → Option String
  evaluate_source : EvalCall → σ → Int → σ × Int
  get_current_ns : σ → Option String
  write_to_socket : Int → String → Int
  indent_space_count : String → Int

/-- Which callback `set_print_sender` has installed. -/
inductive PrintSender where
  | null
  | socket_sender
  | linenoisePrintNow
  deriving DecidableEq

/-- Everything outside the session that `process_line` and
`socket_repl_data_arrived` read or write: the engine, the globals `exit_value`,
`return_termsize` and `sock_to_write_to`, the interrupt handler, the installed
print sender, the line editor's `is_pasting()` flag, and the logs of the calls
to `evaluate_source`, `engine_print`, `linenoiseHistoryAdd`,
`linenoiseHistorySave` and `write_to_socket`. -/
structure World (σ : Type) where
  engine : σ
  exit_value : Int
  return_termsize : Bool
  int_handler : Bool
  is_pasting : Bool
  evals : List EvalCall
  engine_out : List String
  history : List String
  history_saves : List String
  sock_to_write_to : Int
  print_sender : PrintSender
  socket_out : List (Int × String)

/-- Why a run has no result in the model. -/
inductive Fault where
  | out_of_fuel
  | undefined_behaviour
  deriving DecidableEq

/-- How a call ends: the function returns a value, or it calls `exit(code)` and
the process ends inside it. -/
inductive Outcome (α : Type) where
  | returned (value : α)
  | process_exit (code : Int)
  deriving DecidableEq

/-- All tokens of `strtok_r(s, "\n", ...)`: the non-empty pieces between newlines. -/
def strtok_newline (s : String) : List String :=
  ((s.data.splitOn '\n').filter (fun t => !t.isEmpty)).map String.mk

/-- Source `process_line`, lines 133-138: the pending buffer after the new line
has been joined to it. -/
def joined_input (input : Option String) (input_line : String) : String :=
  match input with
  | none => input_line
  | some old => old ++ "\n" ++ input_line

/-- The first part of source `process_line`, lines 133-142: the new line is
joined to the pending buffer and appended to the raw-line sequence. -/
def accumulate (repl : repl_t) (input_line : String) : repl_t :=
  { repl with
    input := some (joined_input repl.input input_line)
    num_previous_lines := repl.num_previous_lines + 1
    previous_lines := repl.previous_lines ++ [input_line] }

/-- The history block of source `process_line`, lines 155-172. -/
def add_to_history {σ : Type} (repl : repl_t) (input : String) (input_line : String)
    (split_on_newlines : Bool) (w : World σ) : World σ :=
  match repl.history_path with
  | none => w
  | some path =>
    if !is_whitespace input then
      let added := if split_on_newlines then strtok_newline input_line else [input_line]
      { w with history := w.history ++ added, history_saves := w.history_saves ++ [path] }
    else
      w

/-- Source `process_line`, lines 186-203: the evaluator is called on the
truncated buffer `source`, between the updates of `return_termsize` and of the
interrupt handler. -/
def evaluate_input {σ : Type} (X : Externs σ) (config : Config) (repl : repl_t)
    (source : String) (w : World σ) : World σ :=
  let w := { w with return_termsize := !config.dumb_terminal }
  let w := if repl.session_id = 0 then { w with int_handler := true } else w
  let theme := if repl.session_id = 0 then config.theme else "dumb"
  let call : EvalCall := ⟨source, repl.current_ns, theme, repl.session_id⟩
  let r := X.evaluate_source call w.engine w.exit_value
  let w := { w with engine := r.1, exit_value := r.2, evals := w.evals ++ [call] }
  let w := if repl.session_id = 0 then { w with int_handler := false } else w
  { w with return_termsize := false }

/-- Source `process_line`, lines 213-227: the leftover becomes the buffer, the
raw-line cache is emptied, and the namespace and the prompt are refreshed when
the engine reports a namespace. -/
def reset_for_next_round {σ : Type} (X : Externs σ) (config : Config) (repl : repl_t)
    (balance_text : String) (w : World σ) : repl_t :=
  let repl := { repl with input := some balance_text }
  let repl := empty_previous_lines repl
  match X.get_current_ns w.engine with
  | some current_ns =>
    let repl := { repl with current_ns := current_ns }
    { repl with current_prompt := form_prompt config repl false }
  | none => repl

/-- Source `process_line`, lines 235-244: the buffer holds no complete form. -/
def need_more_input {σ : Type} (X : Externs σ) (config : Config) (repl : repl_t)
    (input : String) (w : World σ) : repl_t :=
  let repl := match repl.history_path with
    | some _ =>
      if !w.is_pasting then { repl with indent_space_count := X.indent_space_count input }
      else repl
    | none => repl
  { repl with current_prompt := form_prompt config repl true }

/-- The `while (!done)` loop of source `process_line`, lines 180-246, one
iteration per unit of fuel: the loop has no bound of its own, and a run that
uses up its fuel has no result.  The reader's leftover must not be longer than
the buffer, else the truncation at line 182 writes outside it. -/
def process_loop {σ : Type} (X : Externs σ) (config : Config) :
    Nat → repl_t → World σ → Except Fault (Outcome Bool × repl_t × World σ)
  | 0, _, _ => .error .out_of_fuel
  | fuel + 1, repl, w =>
    match repl.input with
    | none => .error .undefined_behaviour
    | some input =>
      match X.is_readable input with
      | some balance_text =>
        if balance_text.length ≤ input.length then
          let source := str_truncate input (input.length - balance_text.length)
          let repl := { repl with input := some source }
          if !is_whitespace source then
            let w := evaluate_input X config repl source w
            if w.exit_value ≠ 0 then
              .ok (.returned true, repl, w)
            else
              let repl := reset_for_next_round X config repl balance_text w
              if is_whitespace balance_text then
                .ok (.returned false, { repl with input := none }, w)
              else
                process_loop X config fuel repl w
          else
            let w := { w with engine_out := w.engine_out ++ ["\n"] }
            let repl := reset_for_next_round X config repl balance_text w
            if is_whitespace balance_text then
              .ok (.returned false, { repl with input := none }, w)
            else
              process_loop X config fuel repl w
        else
          .error .undefined_behaviour
      | none =>
        .ok (.returned false, need_more_input X config repl input w, w)

/-- Source `process_line`. -/
def process_line {σ : Type} (X : Externs σ) (config : Config) (fuel : Nat)
    (repl : repl_t) (w : World σ) (input_line : String) (split_on_newlines : Bool) :
    Except Fault (Outcome Bool × repl_t × World σ) :=
  let input := joined_input repl.input input_line
  let repl := accumulate repl input_line
  if is_exit_command input (repl.session_id != 0) then
    if repl.session_id = 0 then
      .ok (.process_exit 0, repl, w)
    else
      .ok (.returned true, repl, w)
  else
    let w := add_to_history repl input input_line split_on_newlines w
    process_loop X config fuel repl w

/-- The Ctrl-C branch of source `run_cmdline_loop`, lines 315-321; the newline
it prints is not recorded. -/
def ctrl_c_reset (config : Config) (repl : repl_t) : repl_t :=
  let repl := { repl with input := none, indent_space_count := 0 }
  let repl := empty_previous_lines repl
  { repl with current_prompt := form_prompt config repl false }

/-! ## The socket REPL -/

/-- Source `conn_data_cb_ret_t` (declared in `sockets.h`): the two fields that
`socket_repl_data_arrived` fills. -/
structure conn_data_cb_ret_t where
  err : Int
  close : Bool
  deriving DecidableEq

/-- Source `socket_repl_data_arrived`, lines 524-528: the engine output is
routed to the connection. -/
def route_to_socket {σ : Type} (sock : Int) (w : World σ) : World σ :=
  { w with sock_to_write_to := sock, print_sender := PrintSender.socket_sender }

/-- Source `socket_repl_data_arrived`, lines 532-533: the route is cleared. -/
def clear_route {σ : Type} (w : World σ) : World σ :=
  { w with print_sender := PrintSender.null, sock_to_write_to := 0 }

/-- Source `socket_repl_data_arrived`, lines 520-522: a trailing `"\r\n"` is cut
off the received data. -/
def trim_crlf (data : String) : String :=
  if str_has_suffix data "\r\n" = 0 then str_truncate data (data.length - 2) else data

/-- Source `socket_repl_data_arrived`; `state` is the connection's session.
The print mutex is not modelled: the call runs alone. -/
def socket_repl_data_arrived {σ : Type} (X : Externs σ) (config : Config) (fuel : Nat)
    (data : Option String) (sock : Int) (state : repl_t) (w : World σ) :
    Except Fault (Outcome conn_data_cb_ret_t × repl_t × World σ) :=
  match data with
  | some data =>
    match process_line X config fuel state (route_to_socket sock w) (trim_crlf data) false with
    | .error e => .error e
    | .ok (.process_exit code, repl, w) => .ok (.process_exit code, repl, w)
    | .ok (.returned exit, repl, w) =>
      let w := clear_route w
      match exit, repl.current_prompt with
      | false, some prompt =>
        let err := X.write_to_socket sock prompt
        .ok (.returned ⟨err, exit⟩, repl, { w with socket_out := w.socket_out ++ [(sock, prompt)] })
      | _, _ => .ok (.returned ⟨0, exit⟩, repl, w)
  | none => .ok (.returned ⟨0, true⟩, state, w)

/-! ## Bracket highlighting -/

/-- Source `struct hl_restore`. -/
structure hl_restore_t where
  id : Int
  num_lines_up : Int
  relative_horiz : Int
  deriving DecidableEq

/-- What `repl.c` sends to `stdout` while highlighting:
`fprintf(stdout, "\x1b[%d<final>", n)` and `fflush(stdout)`. -/
inductive TermOut where
  | csi (n : Int) (final : Char)
  | flush
  deriving DecidableEq

/-- The globals of the highlight engine, the terminal output and the timers
started with `start_timer(ms, do_highlight_restore, data)`. -/
structure Terminal where
  highlight_restore_sequence : Int
  hl_restore : hl_restore_t
  stdout : List TermOut
  timers : List (Nat × hl_restore_t)
  deriving DecidableEq

/-- The value of a C `int` after an arithmetic result `x`, in two's complement. -/
def int_wrap (x : Int) : Int := (x + 2147483648) % 4294967296 - 2147483648

/-- Source `do_highlight_restore`, lines 411-421: the inverse movement is
written and flushed. -/
def emit_restore (data : hl_restore_t) (t : Terminal) : Terminal :=
  let t : Terminal := if data.num_lines_up ≠ 0 then
      { t with stdout := t.stdout ++ [TermOut.csi data.num_lines_up 'B'] }
    else t
  let t : Terminal := if data.relative_horiz < 0 then
      { t with stdout := t.stdout ++ [TermOut.csi (-data.relative_horiz) 'C'] }
    else if data.relative_horiz > 0 then
      { t with stdout := t.stdout ++ [TermOut.csi data.relative_horiz 'D'] }
    else t
  { t with stdout := t.stdout ++ [TermOut.flush] }

/-- Source `do_highlight_restore`, lines 405-423: what the callback does once
it has read `highlight_restore_sequence_value` in its first critical section. -/
def restore_if_current (data : hl_restore_t) (highlight_restore_sequence_value : Int)
    (t : Terminal) : Terminal :=
  if data.id = highlight_restore_sequence_value then
    let t : Terminal :=
      { t with highlight_restore_sequence := int_wrap (t.highlight_restore_sequence + 1) }
    emit_restore data t
  else
    t

/-- Source `do_highlight_restore`, run without interruption: the counter is
read (lines 401-403), then compared (lines 405-423). -/
def do_highlight_restore (data : hl_restore_t) (t : Terminal) : Terminal :=
  restore_if_current data t.highlight_restore_sequence t

/-- The collaborators of `highlight`: the bracket matcher, which receives the
initial values `(-1, 0)` of `num_lines_up` and `highlight_pos` and returns
their final values, and the result of `ioctl(STDOUT_FILENO, TIOCGWINSZ, &w)`:
`none` when it returns `-1`, else `w.ws_col`. -/
structure HlExterns where
  highlight_coords_for_pos : Int → String → Nat → List String → Int × Int → Int × Int
  winsize : Option Nat

/-- Source `highlight`, lines 446-448: the terminal width. -/
def terminal_width (E : HlExterns) : Int :=
  match E.winsize with
  | none => 80
  | some ws_col => ws_col

/-- Source `highlight`, lines 468-478: the cursor hops to the opening bracket. -/
def emit_hop (num_lines_up relative_horiz : Int) (t : Terminal) : Terminal :=
  let t : Terminal := if num_lines_up ≠ 0 then
      { t with stdout := t.stdout ++ [TermOut.csi num_lines_up 'A'] }
    else t
  let t : Terminal := if relative_horiz < 0 then
      { t with stdout := t.stdout ++ [TermOut.csi (-relative_horiz) 'D'] }
    else if relative_horiz > 0 then
      { t with stdout := t.stdout ++ [TermOut.csi relative_horiz 'C'] }
    else t
  { t with stdout := t.stdout ++ [TermOut.flush] }

/-- Source `highlight`, lines 480-489: the restoration is stamped with the next
value of the counter, copied to the global `hl_restore`, and scheduled. -/
def schedule_restore (num_lines_up relative_horiz : Int) (t : Terminal) : Terminal :=
  let t : Terminal :=
    { t with highlight_restore_sequence := int_wrap (t.highlight_restore_sequence + 1) }
  let hl_restore_local : hl_restore_t :=
    ⟨t.highlight_restore_sequence, num_lines_up, relative_horiz⟩
  { t with hl_restore := hl_restore_local, timers := t.timers ++ [(500, hl_restore_local)] }

/-- Source `highlight`, lines 455-460: `num_lines_up` and `relative_horiz`
after the adjustment for a cursor that has wrapped beyond the first terminal
row.  The divisor `terminal_width` is not zero when the test holds. -/
def wrap_adjust (terminal_width cursor_absolute_pos highlight_absolute_pos num_lines_up
    relative_horiz : Int) : Int × Int :=
  if cursor_absolute_pos > terminal_width
      ∧ -relative_horiz ≥ cursor_absolute_pos.tmod terminal_width then
    (num_lines_up + (1 + (terminal_width * (cursor_absolute_pos.tdiv terminal_width)
        - highlight_absolute_pos).tdiv terminal_width),
      (-(-relative_horiz - terminal_width)).tmod terminal_width)
  else
    (num_lines_up, relative_horiz)

/-- Source `highlight`; `s_repl` is the local session.  The geometry is
computed in `Int`: positions are bounded by the buffer and the terminal, far
inside the range of `int`.  `/` and `%` of C truncate towards zero, and a zero
divisor is undefined. -/
def highlight (E : HlExterns) (s_repl : repl_t) (buf : String) (pos : Nat) (t : Terminal) :
    Except Fault Terminal :=
  if pos > buf.length then .error .undefined_behaviour else
  let current := buf.data.getD pos (Char.ofNat 0)
  if current = ']' || current = '}' || current = ')' then
    let coords := E.highlight_coords_for_pos pos buf s_repl.num_previous_lines
      s_repl.previous_lines (-1, 0)
    let num_lines_up := coords.1
    let highlight_pos := coords.2
    let current_pos : Int := pos + 1
    if num_lines_up ≠ -1 then
      let relative_horiz := highlight_pos - current_pos
      let terminal_width := terminal_width E
      match s_repl.current_prompt with
      | none => .error .undefined_behaviour
      | some current_prompt =>
        let prompt_length : Int := current_prompt.length
        let cursor_absolute_pos := current_pos + prompt_length + 1
        let highlight_absolute_pos := highlight_pos + prompt_length
        if cursor_absolute_pos > terminal_width ∧ terminal_width = 0 then
          .error .undefined_behaviour
        else
          let adjusted := wrap_adjust terminal_width cursor_absolute_pos highlight_absolute_pos
            num_lines_up relative_horiz
          if cursor_absolute_pos > 3 * terminal_width - prompt_length then
            .ok t
          else
            .ok (schedule_restore adjusted.1 adjusted.2 (emit_hop adjusted.1 adjusted.2 t))
    else
      .ok t
  else
    .ok t

/-- Source `highlight_cancel`. -/
def highlight_cancel (t : Terminal) : Terminal :=
  if t.hl_restore.id ≠ 0 then do_highlight_restore t.hl_restore t else t

/-- The cursor displacement `(rows down, columns right)` of the movement
sequences `CSI n A` (up), `B` (down), `C` (right) and `D` (left). -/
def cursor_delta : List TermOut → Int × Int
  | [] => (0, 0)
  | .csi n c :: rest =>
    let d := cursor_delta rest
    if c = 'A' then (d.1 - n, d.2)
    else if c = 'B' then (d.1 + n, d.2)
    else if c = 'C' then (d.1, d.2 + n)
    else if c = 'D' then (d.1, d.2 - n)
    else d
  | .flush :: rest => cursor_delta rest

/-! ## Scenarios of the properties -/

/-- Successive calls `process_line(repl, line, false)`, one per line, as the
callers make them; the feeding stops at the first call that does not return
`false`. -/
def feed_lines {σ : Type} (X : Externs σ) (config : Config) (fuel : Nat) :
    List String → repl_t → World σ → Except Fault (Outcome Bool × repl_t × World σ)
  | [], repl, w => .ok (.returned false, repl, w)
  | line :: rest, repl, w =>
    match process_line X config fuel repl w line false with
    | .ok (.returned false, repl, w) => feed_lines X config fuel rest repl w
    | other => other

/-- The text whose lines are `first`, then the elements of `rest`. -/
def join_onto (first : String) (rest : List String) : String :=
  rest.foldl (fun acc line => acc ++ "\n" ++ line) first

/-- The text whose lines are the given fragments. -/
def join_lines : List String → String
  | [] => ""
  | first :: rest => join_onto first rest

/-- For the reader `is_readable`, the text `e` is one complete expression: it
starts with a character that is not a space, the reader finds a complete form
in it and leaves nothing unread, and it finds no complete form in the lines of
`e` before any of its line breaks. -/
def complete_expression (is_readable : String → Option String) (e : String) : Prop :=
  (∃ c rest, e.data = c :: rest ∧ isspace c = false) ∧
  is_readable e = some "" ∧
  ∀ p q : String, e = p ++ "\n" ++ q → is_readable p = none

/-- The session states reached from a fresh session by calls of `process_line`
that return `false` and by Ctrl-C resets, each with the number of lines
appended since the most recent reset: a reset is a Ctrl-C or a call in which
a readable prefix was consumed (sent to the evaluator, or answered by a
newline when blank).  The world between two calls is arbitrary. -/
inductive Reached {σ : Type} (X : Externs σ) (config : Config) : repl_t → Nat → Prop where
  | fresh (repl : repl_t) (h : repl.num_previous_lines = 0) : Reached X config repl 0
  | interrupt (repl : repl_t) (n : Nat) (h : Reached X config repl n) :
      Reached X config (ctrl_c_reset config repl) 0
  | appended (repl repl' : repl_t) (n fuel : Nat) (w w' : World σ) (line : String)
      (split : Bool) (h : Reached X config repl n)
      (hcall : process_line X config fuel repl w line split = .ok (.returned false, repl', w'))
      (hevals : w'.evals = w.evals) (hout : w'.engine_out = w.engine_out) :
      Reached X config repl' (n + 1)
  | consumed (repl repl' : repl_t) (n fuel : Nat) (w w' : World σ) (line : String)
      (split : Bool) (h : Reached X config repl n)
      (hcall : process_line X config fuel repl w line split = .ok (.returned false, repl', w'))
      (hreset : w'.evals ≠ w.evals ∨ w'.engine_out ≠ w.engine_out) :
      Reached X config repl' 0

/-- How one iteration of the `while (!done)` loop ends: the call returns, the
loop goes round again with a new buffer, or the iteration has no defined
behaviour. -/
inductive LoopStep (σ : Type) where
  | finished (out : Outcome Bool) (repl : repl_t) (w : World σ)
  | again (repl : repl_t) (w : World σ)
  | fault (f : Fault)

/-- One iteration of the `while (!done)` loop of source `process_line`, lines
181-245: the body of `process_loop`, with the next round left to the caller. -/
def process_loop_iteration {σ : Type} (X : Externs σ) (config : Config) (repl : repl_t)
    (w : World σ) : LoopStep σ :=
  match repl.input with
  | none => .fault .undefined_behaviour
  | some input =>
    match X.is_readable input with
    | some balance_text =>
      if balance_text.length ≤ input.length then
        let source := str_truncate input (input.length - balance_text.length)
        let repl := { repl with input := some source }
        if !is_whitespace source then
          let w := evaluate_input X config repl source w
          if w.exit_value ≠ 0 then
            .finished (.returned true) repl w
          else
            let repl := reset_for_next_round X config repl balance_text w
            if is_whitespace balance_text then
              .finished (.returned false) { repl with input := none } w
            else
              .again repl w
        else
          let w := { w with engine_out := w.engine_out ++ ["\n"] }
          let repl := reset_for_next_round X config repl balance_text w
          if is_whitespace balance_text then
            .finished (.returned false) { repl with input := none } w
          else
            .again repl w
      else
        .fault .undefined_behaviour
    | none =>
      .finished (.returned false) (need_more_input X config repl input w) w

/-- The contract of the reader: what it leaves unread is a suffix of the
buffer, and a strictly shorter one when the buffer is not blank. -/
def leftover_is_suffix (is_readable : String → Option String) : Prop :=
  ∀ buf rest : String, is_readable buf = some rest →
    rest.data <:+ buf.data ∧ (is_whitespace buf = false → rest.length < buf.length)

/-! ## A sample engine, for the concrete runs -/

/-- Scans to the bracket that closes the `depth + 1` open brackets and returns
the text after it, or `none` when the text ends first. -/
def sample_scan : Nat → List Char → Option (List Char)
  | _, [] => none
  | depth, c :: rest =>
    if c = '(' then sample_scan (depth + 1) rest
    else if c = ')' then
      match depth with
      | 0 => some rest
      | d + 1 => sample_scan d rest
    else sample_scan depth rest

/-- A sample reader: leading spaces are skipped; a blank text is read whole; a
text starting with `(` is complete when the bracket is closed, and the
leftover is what follows the closing bracket; any other text starts with an
atom, which ends before the next space or bracket. -/
def sample_is_readable (s : String) : Option String :=
  match s.data.dropWhile isspace with
  | [] => some ""
  | c :: rest =>
    if c = '(' then (sample_scan 0 rest).map String.mk
    else some (String.mk (rest.dropWhile (fun d => !(isspace d || d = '(' || d = ')'))))

/-- A sample engine without state: `(exit 1)` sets `exit_value` to `1`, every
other form leaves it, and the namespace is always `cljs.user`. -/
def sample_externs : Externs Unit where
  is_readable := sample_is_readable
  evaluate_source := fun call engine exit_value =>
    (engine, if call.source = "(exit 1)" then 1 else exit_value)
  get_current_ns := fun _ => some "cljs.user"
  write_to_socket := fun _ _ => 0
  indent_space_count := fun _ => 0

/-- The world at the start of the concrete runs. -/
def sample_world : World Unit where
  engine := ()
  exit_value := 0
  return_termsize := false
  int_handler := false
  is_pasting := false
  evals := []
  engine_out := []
  history := []
  history_saves := []
  sock_to_write_to := 0
  print_sender := PrintSender.null
  socket_out := []

/-- The rich local terminal of the concrete runs. -/
def sample_config : Config := ⟨false, false, "light"⟩

/-- A remote session as `accepted_socket_repl_connection` builds it, with
session id `1`. -/
def sample_remote : repl_t :=
  { make_repl with current_prompt := some "cljs.user=> ", session_id := 1 }

/-- A reader that consumes nothing: it reports a complete form in every buffer
and returns the whole buffer as leftover. -/
def stuck_externs : Externs Unit :=
  { sample_externs with is_readable := fun s => some s }

/-- A reader that finds no form in any non-empty buffer and, on the empty
buffer, returns a leftover that is longer than the buffer. -/
def overlong_externs : Externs Unit :=
  { sample_externs with is_readable := fun s => if s = "" then some "x" else none }

/-- A sample bracket matcher and terminal: the opening bracket is found on the
same line at column `1`, and the terminal width is unknown, hence `80`. -/
def sample_hl_externs : HlExterns where
  highlight_coords_for_pos := fun _ _ _ _ _ => (0, 1)
  winsize := none

/-- The highlight globals at program start. -/
def sample_terminal : Terminal := ⟨0, ⟨0, 0, 0⟩, [], []⟩

/-- The local session with its first prompt, as `run_repl` sets it up. -/
def sample_local : repl_t := { make_repl with current_prompt := some "cljs.user=> " }

/-- A line of `220` opening brackets followed by one closing bracket. -/
def sample_long_line : String := String.mk (List.replicate 220 '(' ++ [')'])

/-! ## Lemmas on strings -/

theorem str_fill_length (c : Char) (n : Nat) : (str_fill c n).length = n := by
  simp [str_fill, String.length]

theorem string_length_pos_of_ne_empty (s : String) (h : s ≠ "") : 0 < s.length := by
  rcases s with ⟨l⟩
  cases l with
  | nil => exact absurd rfl h
  | cons a l => simp [String.length]

/-! ## Prompts -/

/-- C1, as stated, fails: for the empty namespace on a local session in rich
mode the primary prompt `" => "` has 4 characters and the secondary prompt
`"#_=> "` has 5. -/
theorem form_prompt_empty_namespace_widths :
    form_prompt ⟨false, false, "light"⟩ { make_repl with current_ns := "" } false = some " => " ∧
    form_prompt ⟨false, false, "light"⟩ { make_repl with current_ns := "" } true = some "#_=> " ∧
    (" => ").length = 4 ∧ ("#_=> ").length = 5 := by
  decide

/-- C1, amended: for every non-empty namespace, on a local session in rich
mode, the secondary prompt is a run of spaces followed by `"#_=> "` and has
the length of the primary prompt; for the namespace `"cljs.user"` the primary
prompt is `"cljs.user=> "`. -/
theorem form_prompt_secondary_width (config : Config) (repl : repl_t)
    (hlocal : repl.session_id = 0) (hrich : config.dumb_terminal = false)
    (hns : repl.current_ns ≠ "") :
    ∃ primary pad, form_prompt config repl false = some primary ∧
      form_prompt config repl true = some (str_fill ' ' pad ++ "#_=> ") ∧
      (str_fill ' ' pad ++ "#_=> ").length = primary.length ∧
      (repl.current_ns = "cljs.user" → primary = "cljs.user=> ") := by
  have hpos := string_length_pos_of_ne_empty _ hns
  by_cases hlt : repl.current_ns.length < 2
  · refine ⟨" " ++ repl.current_ns ++ "=> ", 0, ?_, ?_, ?_, ?_⟩
    · simp [form_prompt, hrich, hlt]
    · simp [form_prompt, hrich, hlocal, hlt, SEC_PROMPT]
    · have h1 : repl.current_ns.length = 1 := by omega
      simp [String.length_append, str_fill_length, h1]
      decide
    · intro h
      rw [h] at hlt
      exact absurd hlt (by decide)
  · refine ⟨repl.current_ns ++ "=> ", repl.current_ns.length - 2, ?_, ?_, ?_, ?_⟩
    · simp [form_prompt, hlt, str_concat]
    · simp [form_prompt, hrich, hlocal, hlt, SEC_PROMPT]
    · have h3 : ("=> ").length = 3 := by decide
      have h5 : ("#_=> ").length = 5 := by decide
      simp only [String.length_append, str_fill_length, h3, h5]
      omega
    · intro h
      rw [h]
      decide

/-- Witness of `form_prompt_secondary_width` at the namespace `"cljs.user"`. -/
theorem form_prompt_secondary_width_witness :
    ∃ primary pad, form_prompt ⟨false, false, "light"⟩ make_repl false = some primary ∧
      form_prompt ⟨false, false, "light"⟩ make_repl true = some (str_fill ' ' pad ++ "#_=> ") ∧
      (str_fill ' ' pad ++ "#_=> ").length = primary.length ∧
      (make_repl.current_ns = "cljs.user" → primary = "cljs.user=> ") :=
  form_prompt_secondary_width ⟨false, false, "light"⟩ make_repl rfl rfl (by decide)

/-- C2: `is_exit_command` holds exactly for the four keywords `":cljs/quit"`,
`"quit"`, `"exit"`, `"\x04"` and, with the socket flag, `":repl/quit"`; the flag
that `process_line` passes is `session_id != 0`, so `":repl/quit"` is not an
exit command of the local session. -/
theorem is_exit_command_iff (s : String) (is_socket_repl : Bool) (repl : repl_t) :
    (is_exit_command s is_socket_repl = true ↔
      s = ":cljs/quit" ∨ s = "quit" ∨ s = "exit" ∨ s = "\x04" ∨
        (is_socket_repl = true ∧ s = ":repl/quit")) ∧
    is_exit_command ":repl/quit" false = false ∧
    (is_exit_command ":repl/quit" (repl.session_id != 0) = true ↔ repl.session_id ≠ 0) := by
  refine ⟨?_, by decide, ?_⟩
  · simp [is_exit_command, or_assoc]
  · have hd : ¬ (":repl/quit" = ":cljs/quit" ∨ ":repl/quit" = "quit" ∨ ":repl/quit" = "exit"
        ∨ ":repl/quit" = "\x04") := by decide
    simp only [is_exit_command, Bool.or_eq_true, Bool.and_eq_true, decide_eq_true_eq, or_assoc, bne_iff_ne]
    constructor
    · rintro (h | h | h | h | ⟨h, -⟩)
      · exact absurd (Or.inl h) hd
      · exact absurd (Or.inr (Or.inl h)) hd
      · exact absurd (Or.inr (Or.inr (Or.inl h))) hd
      · exact absurd (Or.inr (Or.inr (Or.inr h))) hd
      · exact h
    · intro h
      exact Or.inr (Or.inr (Or.inr (Or.inr ⟨h, trivial⟩)))

/-! ## Lemmas on `process_line` -/

theorem process_line_exit_keyword {σ : Type} (X : Externs σ) (config : Config) (fuel : Nat)
    (repl : repl_t) (w : World σ) (line : String) (split : Bool)
    (hexit : is_exit_command (joined_input repl.input line) (repl.session_id != 0) = true) :
    process_line X config fuel repl w line split =
      .ok (if repl.session_id = 0 then .process_exit 0 else .returned true,
        accumulate repl line, w) := by
  simp only [process_line, accumulate, hexit, if_true]
  split <;> rfl

theorem process_line_no_keyword {σ : Type} (X : Externs σ) (config : Config) (fuel : Nat)
    (repl : repl_t) (w : World σ) (line : String) (split : Bool)
    (hexit : is_exit_command (joined_input repl.input line) (repl.session_id != 0) = false) :
    process_line X config fuel repl w line split =
      process_loop X config fuel (accumulate repl line)
        (add_to_history (accumulate repl line) (joined_input repl.input line) line split w) := by
  simp [process_line, accumulate, hexit]

theorem process_loop_incomplete {σ : Type} (X : Externs σ) (config : Config) (fuel : Nat)
    (repl : repl_t) (w : World σ) (input : String)
    (hin : repl.input = some input) (hread : X.is_readable input = none) :
    process_loop X config (fuel + 1) repl w =
      .ok (.returned false, need_more_input X config repl input w, w) := by
  simp [process_loop, hin, hread]

theorem add_to_history_evals {σ : Type} (repl : repl_t) (input line : String) (split : Bool)
    (w : World σ) :
    (add_to_history repl input line split w).evals = w.evals ∧
    (add_to_history repl input line split w).engine_out = w.engine_out ∧
    (add_to_history repl input line split w).engine = w.engine ∧
    (add_to_history repl input line split w).exit_value = w.exit_value ∧
    (add_to_history repl input line split w).socket_out = w.socket_out := by
  unfold add_to_history
  split
  · simp
  · split <;> simp

theorem need_more_input_fields {σ : Type} (X : Externs σ) (config : Config) (repl : repl_t)
    (input : String) (w : World σ) :
    (need_more_input X config repl input w).input = repl.input ∧
    (need_more_input X config repl input w).session_id = repl.session_id ∧
    (need_more_input X config repl input w).current_ns = repl.current_ns ∧
    (need_more_input X config repl input w).num_previous_lines = repl.num_previous_lines ∧
    (need_more_input X config repl input w).current_prompt =
      form_prompt config repl true := by
  unfold need_more_input
  split
  · split <;> simp [form_prompt]
  · simp

theorem evaluate_input_fields {σ : Type} (X : Externs σ) (config : Config) (repl : repl_t)
    (source : String) (w : World σ) :
    (evaluate_input X config repl source w).evals =
      w.evals ++ [⟨source, repl.current_ns,
        if repl.session_id = 0 then config.theme else "dumb", repl.session_id⟩] ∧
    (evaluate_input X config repl source w).engine_out = w.engine_out ∧
    (evaluate_input X config repl source w).socket_out = w.socket_out ∧
    (evaluate_input X config repl source w).history = w.history ∧
    (evaluate_input X config repl source w).exit_value =
      (X.evaluate_source ⟨source, repl.current_ns,
        if repl.session_id = 0 then config.theme else "dumb", repl.session_id⟩
        w.engine w.exit_value).2 := by
  unfold evaluate_input
  by_cases h : repl.session_id = 0 <;> simp [h]

theorem reset_for_next_round_fields {σ : Type} (X : Externs σ) (config : Config) (repl : repl_t)
    (balance_text : String) (w : World σ) :
    (reset_for_next_round X config repl balance_text w).input = some balance_text ∧
    (reset_for_next_round X config repl balance_text w).num_previous_lines = 0 ∧
    (reset_for_next_round X config repl balance_text w).session_id = repl.session_id := by
  unfold reset_for_next_round
  split <;> simp [empty_previous_lines]

/-- What a finished run of the loop tells: the logs only grow, a `true` result
comes after an evaluation, the process never exits inside the loop, and a
`false` result either left the world and the raw-line count untouched or
consumed a prefix and left the raw-line count at zero. -/
theorem process_loop_result {σ : Type} (X : Externs σ) (config : Config) :
    ∀ (fuel : Nat) (repl : repl_t) (w : World σ) (out : Outcome Bool) (repl' : repl_t)
      (w' : World σ), process_loop X config fuel repl w = .ok (out, repl', w') →
      w.evals.length ≤ w'.evals.length ∧ w.engine_out.length ≤ w'.engine_out.length ∧
      w'.socket_out = w.socket_out ∧ w'.history = w.history ∧
      repl'.session_id = repl.session_id ∧
      (∀ code, out ≠ .process_exit code) ∧
      (out = .returned true → w.evals.length < w'.evals.length) ∧
      (out = .returned false →
        (w' = w ∧ repl'.num_previous_lines = repl.num_previous_lines) ∨
        (w.evals.length + w.engine_out.length < w'.evals.length + w'.engine_out.length ∧
          repl'.num_previous_lines = 0)) := by
  intro fuel
  induction fuel with
  | zero => intro repl w out repl' w' h; simp [process_loop] at h
  | succ fuel ih =>
    intro repl w out repl' w' h
    unfold process_loop at h
    split at h
    · simp at h
    · rename_i input hin
      split at h
      · rename_i balance_text hread
        split at h
        · simp only at h
          split at h
          · have hev := evaluate_input_fields X config { repl with input := some (str_truncate input (input.length - balance_text.length)) } (str_truncate input (input.length - balance_text.length)) w
            obtain ⟨he1, he2, he3, he4, -⟩ := hev
            split at h
            · simp only [Except.ok.injEq, Prod.mk.injEq] at h
              obtain ⟨rfl, rfl, rfl⟩ := h
              simp [he1, he2, he3, he4]
            · have hr := reset_for_next_round_fields X config { repl with input := some (str_truncate input (input.length - balance_text.length)) } balance_text (evaluate_input X config { repl with input := some (str_truncate input (input.length - balance_text.length)) } (str_truncate input (input.length - balance_text.length)) w)
              obtain ⟨-, hr2, hr3⟩ := hr
              split at h
              · simp only [Except.ok.injEq, Prod.mk.injEq] at h
                obtain ⟨rfl, rfl, rfl⟩ := h
                simp [he1, he2, he3, he4, hr2, hr3]
              · have := ih _ _ _ _ _ h
                obtain ⟨h1, h2, h3, h4, h5, h6, h7, h8⟩ := this
                rw [he1] at h1 h7 h8
                rw [he2] at h2 h8
                rw [he3] at h3
                rw [he4] at h4
                rw [hr2] at h8
                rw [hr3] at h5
                simp only [List.length_append, List.length_singleton] at h1 h7 h8
                refine ⟨by omega, h2, h3, h4, h5, h6, fun ht => by have := h7 ht; omega, ?_⟩
                intro hf
                right
                rcases h8 hf with ⟨hw, hn⟩ | ⟨hlt, hn⟩
                · subst hw
                  simp [he1, he2, hn]
                · exact ⟨by omega, hn⟩
          · have hr := reset_for_next_round_fields X config { repl with input := some (str_truncate input (input.length - balance_text.length)) } balance_text { w with engine_out := w.engine_out ++ ["\n"] }
            obtain ⟨-, hr2, hr3⟩ := hr
            split at h
            · simp only [Except.ok.injEq, Prod.mk.injEq] at h
              obtain ⟨rfl, rfl, rfl⟩ := h
              simp [hr2, hr3]
            · have := ih _ _ _ _ _ h
              obtain ⟨h1, h2, h3, h4, h5, h6, h7, h8⟩ := this
              rw [hr2] at h8
              rw [hr3] at h5
              simp only [List.length_append, List.length_singleton] at h1 h2 h3 h4 h7 h8
              refine ⟨h1, by omega, h3, h4, h5, h6, h7, ?_⟩
              intro hf
              right
              rcases h8 hf with ⟨hw, hn⟩ | ⟨hlt, hn⟩
              · subst hw
                simp [hn]
              · exact ⟨by omega, hn⟩
        · simp at h
      · simp only [Except.ok.injEq, Prod.mk.injEq] at h
        obtain ⟨rfl, rfl, rfl⟩ := h
        have hn := need_more_input_fields X config repl input w
        simp [hn.2.1, hn.2.2.2.1]

theorem joined_input_has_newline (b line : String) :
    '\n' ∈ (joined_input (some b) line).data := by
  simp [joined_input, String.data_append]

theorem exit_keyword_no_newline (s : String) (flag : Bool)
    (h : is_exit_command s flag = true) : '\n' ∉ s.data := by
  simp only [is_exit_command, Bool.or_eq_true, Bool.and_eq_true, decide_eq_true_eq] at h
  rcases h with (((h | h) | h) | h) | ⟨-, h⟩ <;> subst h <;> decide

/-! ## The properties of the accumulator and of the socket REPL -/

/-- C5: the secondary prompt is absent exactly when the terminal is dumb or the
session is remote; hence, when a remote session receives data after which its
buffer is no exit keyword and holds no complete form,
`socket_repl_data_arrived` leaves the current prompt absent, does not close,
and writes nothing to the socket. -/
theorem form_prompt_secondary_absent_iff {σ : Type} (X : Externs σ) (config : Config)
    (repl : repl_t) :
    (form_prompt config repl true = none ↔
      (config.dumb_terminal = true ∨ repl.session_id ≠ 0)) ∧
    (∀ (fuel : Nat) (w : World σ) (data : String) (sock : Int),
      repl.session_id ≠ 0 →
      is_exit_command (joined_input repl.input (trim_crlf data)) true = false →
      X.is_readable (joined_input repl.input (trim_crlf data)) = none →
      ∃ repl' w', socket_repl_data_arrived X config (fuel + 1) (some data) sock repl w =
          .ok (.returned ⟨0, false⟩, repl', w') ∧
        repl'.input = some (joined_input repl.input (trim_crlf data)) ∧
        repl'.current_prompt = none ∧ w'.socket_out = w.socket_out) := by
  have hiff : form_prompt config repl true = none ↔
      (config.dumb_terminal = true ∨ repl.session_id ≠ 0) := by
    by_cases hs : repl.session_id = 0 <;> cases hd : config.dumb_terminal <;>
      simp [form_prompt, hs, hd]
  refine ⟨hiff, ?_⟩
  intro fuel w data sock hremote hexit hread
  have hflag : (repl.session_id != 0) = true := by simpa using hremote
  have hprompt : form_prompt config (accumulate repl (trim_crlf data)) true = none := by
    simp [form_prompt, accumulate, hremote]
  have hpl := process_line_no_keyword X config (fuel + 1) repl (route_to_socket sock w)
    (trim_crlf data) false (by rw [hflag]; exact hexit)
  rw [process_loop_incomplete X config fuel _ _ (joined_input repl.input (trim_crlf data)) rfl
    hread] at hpl
  have hn := need_more_input_fields X config (accumulate repl (trim_crlf data))
    (joined_input repl.input (trim_crlf data))
    (add_to_history (accumulate repl (trim_crlf data))
      (joined_input repl.input (trim_crlf data)) (trim_crlf data) false (route_to_socket sock w))
  have heq : socket_repl_data_arrived X config (fuel + 1) (some data) sock repl w =
      .ok (.returned ⟨0, false⟩,
        need_more_input X config (accumulate repl (trim_crlf data))
          (joined_input repl.input (trim_crlf data))
          (add_to_history (accumulate repl (trim_crlf data))
            (joined_input repl.input (trim_crlf data)) (trim_crlf data) false
            (route_to_socket sock w)),
        clear_route (add_to_history (accumulate repl (trim_crlf data))
          (joined_input repl.input (trim_crlf data)) (trim_crlf data) false
          (route_to_socket sock w))) := by
    simp only [socket_repl_data_arrived, hpl, hn.2.2.2.2, hprompt]
  refine ⟨_, _, heq, ?_, ?_, ?_⟩
  · rw [hn.1]; rfl
  · rw [hn.2.2.2.2, hprompt]
  · simp [clear_route, (add_to_history_evals _ _ _ _ _).2.2.2.2, route_to_socket]

/-- Witness of `form_prompt_secondary_absent_iff`: a remote session receives
the incomplete form `"(+ 1"` terminated by CRLF. -/
theorem form_prompt_secondary_absent_iff_witness :
    ∃ repl' w', socket_repl_data_arrived sample_externs sample_config 1 (some "(+ 1\r\n") 7
        sample_remote sample_world = .ok (.returned ⟨0, false⟩, repl', w') ∧
      repl'.input = some (joined_input sample_remote.input (trim_crlf "(+ 1\r\n")) ∧
      repl'.current_prompt = none ∧ w'.socket_out = sample_world.socket_out :=
  (form_prompt_secondary_absent_iff sample_externs sample_config sample_remote).2 0 sample_world
    "(+ 1\r\n" 7 (by decide) (by decide) (by decide)

/-- C6: when the reader finds a complete non-blank form in the buffer and the
evaluator leaves a non-zero `exit_value`, the loop of `process_line` returns
`true` at once, at any iteration and for every positive fuel: the session
keeps its namespace, prompt and raw lines, the evaluator has been called
exactly once more, and the result does not depend on what the reader or the
engine would say of the leftover; the same holds for the call of
`process_line` whose first form it is. -/
theorem process_line_stops_on_exit_value {σ : Type} (X : Externs σ) (config : Config)
    (fuel : Nat) (repl : repl_t) (w : World σ) (input balance_text : String)
    (hin : repl.input = some input)
    (hread : X.is_readable input = some balance_text)
    (hlen : balance_text.length ≤ input.length)
    (hform : is_whitespace (str_truncate input (input.length - balance_text.length)) = false)
    (hexit : (X.evaluate_source
      ⟨str_truncate input (input.length - balance_text.length), repl.current_ns,
        if repl.session_id = 0 then config.theme else "dumb", repl.session_id⟩
      w.engine w.exit_value).2 ≠ 0) :
    ∃ w', process_loop X config (fuel + 1) repl w = .ok (.returned true,
        { repl with input := some (str_truncate input (input.length - balance_text.length)) },
        w') ∧
      w'.evals = w.evals ++ [⟨str_truncate input (input.length - balance_text.length),
        repl.current_ns, if repl.session_id = 0 then config.theme else "dumb",
        repl.session_id⟩] ∧
      w'.engine_out = w.engine_out ∧ w'.exit_value ≠ 0 ∧
      (∀ X' : Externs σ, X'.evaluate_source = X.evaluate_source →
        X'.is_readable input = some balance_text →
        process_loop X' config (fuel + 1) repl w = process_loop X config (fuel + 1) repl w) ∧
      (∀ (repl0 : repl_t) (w0 : World σ) (line : String) (split : Bool),
        is_exit_command (joined_input repl0.input line) (repl0.session_id != 0) = false →
        accumulate repl0 line = repl →
        add_to_history repl input line split w0 = w →
        process_line X config (fuel + 1) repl0 w0 line split = .ok (.returned true,
          { repl with input := some (str_truncate input (input.length - balance_text.length)) },
          w')) := by
  have hev := evaluate_input_fields X config
    { repl with input := some (str_truncate input (input.length - balance_text.length)) }
    (str_truncate input (input.length - balance_text.length)) w
  have hloop : ∀ X' : Externs σ, X'.evaluate_source = X.evaluate_source →
      X'.is_readable input = some balance_text →
      process_loop X' config (fuel + 1) repl w = .ok (.returned true,
        { repl with input := some (str_truncate input (input.length - balance_text.length)) },
        evaluate_input X config
          { repl with input := some (str_truncate input (input.length - balance_text.length)) }
          (str_truncate input (input.length - balance_text.length)) w) := by
    intro X' hX hr
    have hsame : evaluate_input X' config
        { repl with input := some (str_truncate input (input.length - balance_text.length)) }
        (str_truncate input (input.length - balance_text.length)) w =
        evaluate_input X config
        { repl with input := some (str_truncate input (input.length - balance_text.length)) }
        (str_truncate input (input.length - balance_text.length)) w := by
      simp [evaluate_input, hX]
    have hne : (evaluate_input X config
        { repl with input := some (str_truncate input (input.length - balance_text.length)) }
        (str_truncate input (input.length - balance_text.length)) w).exit_value ≠ 0 := by
      rw [hev.2.2.2.2]; exact hexit
    simp only [process_loop, hin, hr, hlen, if_true, hform, hsame]
    simp [hne]
  refine ⟨_, hloop X rfl hread, hev.1, hev.2.1, ?_, ?_, ?_⟩
  · rw [hev.2.2.2.2]; exact hexit
  · intro X' hX hr
    rw [hloop X' hX hr, hloop X rfl hread]
  · intro repl0 w0 line split hk hacc hw
    have hj : joined_input repl0.input line = input := by
      have := congrArg repl_t.input hacc
      simp only [accumulate] at this
      rw [hin] at this
      exact Option.some.inj this
    rw [process_line_no_keyword X config (fuel + 1) repl0 w0 line split hk, hacc, hj, hw]
    exact hloop X rfl hread

/-- Witness of `process_line_stops_on_exit_value`: the local session reads
`(exit 1)`, followed on the same line by a second form. -/
theorem process_line_stops_on_exit_value_witness :
    ∃ w', process_loop sample_externs sample_config 1
        (accumulate make_repl "(exit 1) (+ 1 2)") sample_world = .ok (.returned true,
        { accumulate make_repl "(exit 1) (+ 1 2)" with
          input := some (str_truncate "(exit 1) (+ 1 2)"
            (("(exit 1) (+ 1 2)").length - (" (+ 1 2)").length)) }, w') ∧
      w'.evals = sample_world.evals ++ [⟨str_truncate "(exit 1) (+ 1 2)"
        (("(exit 1) (+ 1 2)").length - (" (+ 1 2)").length),
        (accumulate make_repl "(exit 1) (+ 1 2)").current_ns,
        if (accumulate make_repl "(exit 1) (+ 1 2)").session_id = 0 then sample_config.theme
        else "dumb", (accumulate make_repl "(exit 1) (+ 1 2)").session_id⟩] ∧
      w'.engine_out = sample_world.engine_out ∧ w'.exit_value ≠ 0 ∧
      (∀ X' : Externs Unit, X'.evaluate_source = sample_externs.evaluate_source →
        X'.is_readable "(exit 1) (+ 1 2)" = some " (+ 1 2)" →
        process_loop X' sample_config 1 (accumulate make_repl "(exit 1) (+ 1 2)") sample_world =
          process_loop sample_externs sample_config 1
            (accumulate make_repl "(exit 1) (+ 1 2)") sample_world) ∧
      (∀ (repl0 : repl_t) (w0 : World Unit) (line : String) (split : Bool),
        is_exit_command (joined_input repl0.input line) (repl0.session_id != 0) = false →
        accumulate repl0 line = accumulate make_repl "(exit 1) (+ 1 2)" →
        add_to_history (accumulate make_repl "(exit 1) (+ 1 2)") "(exit 1) (+ 1 2)" line split
          w0 = sample_world →
        process_line sample_externs sample_config 1 repl0 w0 line split = .ok (.returned true,
          { accumulate make_repl "(exit 1) (+ 1 2)" with
            input := some (str_truncate "(exit 1) (+ 1 2)"
              (("(exit 1) (+ 1 2)").length - (" (+ 1 2)").length)) }, w')) :=
  process_line_stops_on_exit_value sample_externs sample_config 0
    (accumulate make_repl "(exit 1) (+ 1 2)") sample_world "(exit 1) (+ 1 2)" " (+ 1 2)"
    rfl (by decide) (by decide) (by decide) (by decide)

/-- C10: on a remote session `process_line` applies the exit check to the whole
buffer after the new line has been joined to it: it returns `true` with the
world untouched (no evaluation, no history) exactly when the joined buffer is
an exit keyword, for every fuel; and when a buffer `b` is pending, the joined
buffer `b + "\n" + line` is never an exit keyword, whatever the line. -/
theorem process_line_exit_check_on_joined_buffer {σ : Type} (X : Externs σ) (config : Config)
    (fuel : Nat) (repl : repl_t) (w : World σ) (line : String) (split : Bool)
    (hremote : repl.session_id ≠ 0) :
    (process_line X config fuel repl w line split =
        .ok (.returned true, accumulate repl line, w) ↔
      is_exit_command (joined_input repl.input line) true = true) ∧
    (∀ b : String, repl.input = some b →
      joined_input repl.input line = b ++ "\n" ++ line ∧
      is_exit_command (joined_input repl.input line) true = false ∧
      process_line X config fuel repl w line split ≠
        .ok (.returned true, accumulate repl line, w)) := by
  have hflag : (repl.session_id != 0) = true := by simpa using hremote
  have hiff : process_line X config fuel repl w line split =
        .ok (.returned true, accumulate repl line, w) ↔
      is_exit_command (joined_input repl.input line) true = true := by
    constructor
    · intro h
      by_contra hne
      have hne' : is_exit_command (joined_input repl.input line) (repl.session_id != 0)
          = false := by
        rw [hflag]; simpa using hne
      rw [process_line_no_keyword X config fuel repl w line split hne'] at h
      have hr := process_loop_result X config fuel _ _ _ _ _ h
      have hlt := hr.2.2.2.2.2.2.1 rfl
      rw [(add_to_history_evals _ _ _ _ _).1] at hlt
      exact absurd hlt (lt_irrefl _)
    · intro h
      rw [process_line_exit_keyword X config fuel repl w line split (by rw [hflag]; exact h)]
      simp [hremote]
  refine ⟨hiff, ?_⟩
  intro b hb
  have hno : is_exit_command (joined_input repl.input line) true = false := by
    cases hc : is_exit_command (joined_input repl.input line) true
    · rfl
    · have := exit_keyword_no_newline _ _ hc
      rw [hb] at this
      exact absurd (joined_input_has_newline b line) this
  refine ⟨by rw [hb]; rfl, hno, ?_⟩
  intro h
  rw [hiff.mp h] at hno
  exact absurd hno (by decide)

/-- Witness of `process_line_exit_check_on_joined_buffer`: `"quit"` arrives on a
remote session whose buffer holds `"(+ 1"`. -/
theorem process_line_exit_check_on_joined_buffer_witness :
    joined_input (some "(+ 1") "quit" = "(+ 1" ++ "\n" ++ "quit" ∧
    is_exit_command (joined_input (some "(+ 1") "quit") true = false ∧
    process_line sample_externs sample_config 1 { sample_remote with input := some "(+ 1" }
      sample_world "quit" false ≠
      .ok (.returned true, accumulate { sample_remote with input := some "(+ 1" } "quit",
        sample_world) :=
  (process_line_exit_check_on_joined_buffer sample_externs sample_config 1
    { sample_remote with input := some "(+ 1" } sample_world "quit" false (by decide)).2
    "(+ 1" rfl

/-! ## One expression fed line by line -/

theorem str_truncate_all (s : String) : str_truncate s (s.length - ("").length) = s := by
  rcases s with ⟨l⟩
  simp [str_truncate, String.length]

theorem join_onto_split (b : String) (rest : List String) (h : rest ≠ []) :
    ∃ q, join_onto b rest = b ++ "\n" ++ q := by
  induction rest generalizing b with
  | nil => exact absurd rfl h
  | cons l rest ih =>
    cases rest with
    | nil => exact ⟨l, rfl⟩
    | cons l' rest' =>
      obtain ⟨q, hq⟩ := ih (b ++ "\n" ++ l) (by simp)
      refine ⟨l ++ "\n" ++ q, ?_⟩
      have : join_onto b (l :: l' :: rest') = join_onto (b ++ "\n" ++ l) (l' :: rest') := rfl
      rw [this, hq]
      simp [String.append_assoc]

theorem is_whitespace_of_head (e : String)
    (h : ∃ c rest, e.data = c :: rest ∧ isspace c = false) : is_whitespace e = false := by
  obtain ⟨c, rest, he, hc⟩ := h
  simp [is_whitespace, he, hc]

/-- The iteration that consumes a buffer holding exactly one form: the form is
evaluated, the evaluator leaves `exit_value` at zero, and the buffer is cleared. -/
theorem process_loop_one_form {σ : Type} (X : Externs σ) (config : Config) (fuel : Nat)
    (repl : repl_t) (w : World σ) (e : String)
    (hin : repl.input = some e) (hread : X.is_readable e = some "")
    (hform : is_whitespace e = false)
    (hexit : (X.evaluate_source ⟨e, repl.current_ns,
      if repl.session_id = 0 then config.theme else "dumb", repl.session_id⟩
      w.engine w.exit_value).2 = 0) :
    ∃ repl', process_loop X config (fuel + 1) repl w = .ok (.returned false, repl',
        evaluate_input X config repl e w) ∧ repl'.input = none := by
  have hsame : ({ repl with input := some e } : repl_t) = repl := by
    rcases repl with ⟨a, b, c, d, e', f, g, h⟩
    simp only at hin
    subst hin
    rfl
  have hev := evaluate_input_fields X config repl e w
  have h0 : (evaluate_input X config repl e w).exit_value = 0 := by
    rw [hev.2.2.2.2]; exact hexit
  refine ⟨{ reset_for_next_round X config repl "" (evaluate_input X config repl e w) with
    input := none }, ?_, rfl⟩
  have hblank : is_whitespace "" = true := by decide
  have hlen : ("").length ≤ e.length := by simp
  simp only [process_loop, hin, hread, hlen, if_true, str_truncate_all, hform, hsame]
  simp [h0, hblank]

theorem feed_lines_onto {σ : Type} (X : Externs σ) (config : Config) (fuel : Nat) :
    ∀ (rest : List String) (repl : repl_t) (w : World σ) (b : String),
      rest ≠ [] → repl.input = some b →
      X.is_readable (join_onto b rest) = some "" →
      is_whitespace (join_onto b rest) = false →
      (∀ p q : String, join_onto b rest = p ++ "\n" ++ q → X.is_readable p = none) →
      (∀ p q : String, join_onto b rest = p ++ "\n" ++ q →
        is_exit_command p (repl.session_id != 0) = false) →
      is_exit_command (join_onto b rest) (repl.session_id != 0) = false →
      (X.evaluate_source ⟨join_onto b rest, repl.current_ns,
        if repl.session_id = 0 then config.theme else "dumb", repl.session_id⟩
        w.engine w.exit_value).2 = 0 →
      ∃ repl' w', feed_lines X config (fuel + 1) rest repl w = .ok (.returned false, repl', w') ∧
        w'.evals = w.evals ++ [⟨join_onto b rest, repl.current_ns,
          if repl.session_id = 0 then config.theme else "dumb", repl.session_id⟩] ∧
        repl'.input = none := by
  intro rest
  induction rest with
  | nil => intro repl w b h; exact absurd rfl h
  | cons l rest ih =>
    intro repl w b _ hin hread hform hpre hkwp hkw hexit
    have hj : joined_input repl.input l = b ++ "\n" ++ l := by rw [hin]; rfl
    cases rest with
    | nil =>
      have he : join_onto b [l] = b ++ "\n" ++ l := rfl
      rw [he] at hread hform hkw hexit
      have hh := add_to_history_evals (accumulate repl l) (b ++ "\n" ++ l) l false w
      obtain ⟨repl', hloop, hnone⟩ := process_loop_one_form X config fuel (accumulate repl l)
        (add_to_history (accumulate repl l) (b ++ "\n" ++ l) l false w) (b ++ "\n" ++ l)
        (by simp [accumulate, hj]) hread hform
        (by rw [hh.2.2.1, hh.2.2.2.1]; exact hexit)
      refine ⟨repl', evaluate_input X config (accumulate repl l) (b ++ "\n" ++ l)
        (add_to_history (accumulate repl l) (b ++ "\n" ++ l) l false w), ?_, ?_, hnone⟩
      · simp only [feed_lines]
        rw [process_line_no_keyword X config (fuel + 1) repl w l false (by rw [hj]; exact hkw),
          hj, hloop]
      · rw [(evaluate_input_fields _ _ _ _ _).1, hh.1]
        rfl
    | cons l' rest' =>
      have he : join_onto b (l :: l' :: rest') = join_onto (b ++ "\n" ++ l) (l' :: rest') := rfl
      obtain ⟨q, hq⟩ := join_onto_split (b ++ "\n" ++ l) (l' :: rest') (by simp)
      have hnr : X.is_readable (b ++ "\n" ++ l) = none := hpre _ q (he.trans hq)
      have hnk : is_exit_command (b ++ "\n" ++ l) (repl.session_id != 0) = false :=
        hkwp _ q (he.trans hq)
      have hpl := process_line_no_keyword X config (fuel + 1) repl w l false
        (by rw [hj]; exact hnk)
      rw [hj, process_loop_incomplete X config fuel _ _ (b ++ "\n" ++ l)
        (by simp [accumulate, hj]) hnr] at hpl
      have hn := need_more_input_fields X config (accumulate repl l) (b ++ "\n" ++ l)
        (add_to_history (accumulate repl l) (b ++ "\n" ++ l) l false w)
      have hh := add_to_history_evals (accumulate repl l) (b ++ "\n" ++ l) l false w
      have hsid : (need_more_input X config (accumulate repl l) (b ++ "\n" ++ l)
          (add_to_history (accumulate repl l) (b ++ "\n" ++ l) l false w)).session_id =
          repl.session_id := by rw [hn.2.1]; rfl
      have hns : (need_more_input X config (accumulate repl l) (b ++ "\n" ++ l)
          (add_to_history (accumulate repl l) (b ++ "\n" ++ l) l false w)).current_ns =
          repl.current_ns := by rw [hn.2.2.1]; rfl
      obtain ⟨repl', w', hfeed, hevals, hnone⟩ := ih
        (need_more_input X config (accumulate repl l) (b ++ "\n" ++ l)
          (add_to_history (accumulate repl l) (b ++ "\n" ++ l) l false w))
        (add_to_history (accumulate repl l) (b ++ "\n" ++ l) l false w) (b ++ "\n" ++ l)
        (by simp) (by rw [hn.1]; simp [accumulate, hj])
        (by rw [← he]; exact hread) (by rw [← he]; exact hform)
        (by rw [← he]; exact hpre)
        (by rw [← he, hsid]; exact hkwp)
        (by rw [← he, hsid]; exact hkw)
        (by rw [← he, hsid, hns, hh.2.2.1, hh.2.2.2.1]; exact hexit)
      refine ⟨repl', w', ?_, ?_, hnone⟩
      · rw [← hfeed]
        conv_lhs => unfold feed_lines
        rw [hpl]
      · rw [hevals, hh.1, hsid, hns, ← he]

theorem unique_line_break (a : Char) : ∀ (l1 l2 p q : List Char), a ∉ l1 → a ∉ l2 →
    l1 ++ a :: l2 = p ++ a :: q → p = l1 := by
  intro l1
  induction l1 with
  | nil =>
    intro l2 p q _ h2 h
    cases p with
    | nil => rfl
    | cons x p' =>
      simp only [List.nil_append, List.cons_append, List.cons.injEq] at h
      exact absurd (by rw [h.2]; simp) h2
  | cons x l1 ih =>
    intro l2 p q h1 h2 h
    cases p with
    | nil =>
      simp only [List.nil_append, List.cons_append, List.cons.injEq] at h
      exact absurd (by rw [h.1]; simp) h1
    | cons y p' =>
      simp only [List.cons_append, List.cons.injEq] at h
      rw [h.1, ih l2 p' q (fun hm => h1 (List.mem_cons_of_mem _ hm)) h2 h.2]

theorem line_prefix_unique (l1 l2 p q : String) (h1 : '\n' ∉ l1.data) (h2 : '\n' ∉ l2.data)
    (h : l1 ++ "\n" ++ l2 = p ++ "\n" ++ q) : p = l1 := by
  have hd := congrArg String.data h
  simp only [String.data_append] at hd
  simp only [List.append_assoc, List.singleton_append] at hd
  have := unique_line_break '\n' l1.data l2.data p.data q.data h1 h2 hd
  exact String.ext this

theorem no_line_break (e p q : String) (h1 : '\n' ∉ e.data) : e ≠ p ++ "\n" ++ q := by
  intro h
  apply h1
  rw [h]
  simp [String.data_append]

/-- C3, as stated, fails.  The symbol `exit` is a complete expression, yet fed
as one line it is never sent to the evaluator: the local session ends the
process and the remote session returns `true`, its buffer still holding the
text.  And when the evaluator leaves a non-zero `exit_value`, as for
`(exit 1)`, the call returns `true` and the buffer pointer is not reset. -/
theorem feed_lines_exit_keyword_not_dispatched :
    complete_expression sample_is_readable "exit" ∧
    feed_lines sample_externs sample_config 1 ["exit"] make_repl sample_world =
      .ok (.process_exit 0, accumulate make_repl "exit", sample_world) ∧
    feed_lines sample_externs sample_config 1 ["exit"] sample_remote sample_world =
      .ok (.returned true, accumulate sample_remote "exit", sample_world) ∧
    sample_world.evals = [] ∧
    (accumulate sample_remote "exit").input = some "exit" ∧
    complete_expression sample_is_readable "(exit 1)" ∧
    ∃ repl' w', feed_lines sample_externs sample_config 1 ["(exit 1)"] make_repl sample_world =
        .ok (.returned true, repl', w') ∧ repl'.input = some "(exit 1)" := by
  refine ⟨⟨⟨'e', ['x', 'i', 't'], rfl, by decide⟩, by decide, ?_⟩, rfl, rfl, rfl, rfl,
    ⟨⟨'(', ['e', 'x', 'i', 't', ' ', '1', ')'], rfl, by decide⟩, by decide, ?_⟩,
    ⟨_, _, rfl, rfl⟩⟩
  · intro p q h
    exact absurd h (no_line_break _ p q (by decide))
  · intro p q h
    exact absurd h (no_line_break _ p q (by decide))

/-- C3, amended: let `e` be a complete expression for the reader (it starts
with a non-space character, the reader consumes it whole, and finds no
complete form before any of its line breaks), split into `N ≥ 1` line
fragments.  If neither `e` nor the lines before any of its line breaks are an
exit keyword, and the evaluator leaves `exit_value` at zero on `e`, then feeding
the fragments in order to a session without pending buffer, with any positive
fuel, makes every call return `false`, calls the evaluator exactly once, on
the text `e`, and leaves the pending buffer absent. -/
theorem feed_lines_dispatches_once {σ : Type} (X : Externs σ) (config : Config) (fuel : Nat)
    (repl : repl_t) (w : World σ) (first : String) (rest : List String)
    (hbuf : repl.input = none)
    (hexpr : complete_expression X.is_readable (join_lines (first :: rest)))
    (hkw : is_exit_command (join_lines (first :: rest)) (repl.session_id != 0) = false)
    (hkwp : ∀ p q : String, join_lines (first :: rest) = p ++ "\n" ++ q →
      is_exit_command p (repl.session_id != 0) = false)
    (hexit : (X.evaluate_source ⟨join_lines (first :: rest), repl.current_ns,
      if repl.session_id = 0 then config.theme else "dumb", repl.session_id⟩
      w.engine w.exit_value).2 = 0) :
    ∃ repl' w', feed_lines X config (fuel + 1) (first :: rest) repl w =
        .ok (.returned false, repl', w') ∧
      w'.evals = w.evals ++ [⟨join_lines (first :: rest), repl.current_ns,
        if repl.session_id = 0 then config.theme else "dumb", repl.session_id⟩] ∧
      repl'.input = none := by
  obtain ⟨hhead, hread, hpre⟩ := hexpr
  have hform := is_whitespace_of_head _ hhead
  have hj : joined_input repl.input first = first := by rw [hbuf]; rfl
  cases rest with
  | nil =>
    have he : join_lines [first] = first := rfl
    rw [he] at hread hform hkw hexit ⊢
    have hh := add_to_history_evals (accumulate repl first) first first false w
    obtain ⟨repl', hloop, hnone⟩ := process_loop_one_form X config fuel (accumulate repl first)
      (add_to_history (accumulate repl first) first first false w) first
      (by simp [accumulate, hj]) hread hform
      (by rw [hh.2.2.1, hh.2.2.2.1]; exact hexit)
    refine ⟨repl', evaluate_input X config (accumulate repl first) first
      (add_to_history (accumulate repl first) first first false w), ?_, ?_, hnone⟩
    · simp only [feed_lines]
      rw [process_line_no_keyword X config (fuel + 1) repl w first false
        (by rw [hj]; exact hkw), hj, hloop]
    · rw [(evaluate_input_fields _ _ _ _ _).1, hh.1]
      rfl
  | cons l rest' =>
    have he : join_lines (first :: l :: rest') = join_onto first (l :: rest') := rfl
    rw [he] at hread hform hkw hexit hpre hkwp ⊢
    obtain ⟨q, hq⟩ := join_onto_split first (l :: rest') (by simp)
    have hnr : X.is_readable first = none := hpre _ q hq
    have hnk : is_exit_command first (repl.session_id != 0) = false := hkwp _ q hq
    have hpl := process_line_no_keyword X config (fuel + 1) repl w first false
      (by rw [hj]; exact hnk)
    rw [hj, process_loop_incomplete X config fuel _ _ first
      (by simp [accumulate, hj]) hnr] at hpl
    have hn := need_more_input_fields X config (accumulate repl first) first
      (add_to_history (accumulate repl first) first first false w)
    have hh := add_to_history_evals (accumulate repl first) first first false w
    have hsid : (need_more_input X config (accumulate repl first) first
        (add_to_history (accumulate repl first) first first false w)).session_id =
        repl.session_id := by rw [hn.2.1]; rfl
    have hns : (need_more_input X config (accumulate repl first) first
        (add_to_history (accumulate repl first) first first false w)).current_ns =
        repl.current_ns := by rw [hn.2.2.1]; rfl
    obtain ⟨repl', w', hfeed, hevals, hnone⟩ := feed_lines_onto X config fuel (l :: rest')
      (need_more_input X config (accumulate repl first) first
        (add_to_history (accumulate repl first) first first false w))
      (add_to_history (accumulate repl first) first first false w) first
      (by simp) (by rw [hn.1]; simp [accumulate, hj]) hread hform hpre
      (by rw [hsid]; exact hkwp) (by rw [hsid]; exact hkw)
      (by rw [hsid, hns, hh.2.2.1, hh.2.2.2.1]; exact hexit)
    refine ⟨repl', w', ?_, ?_, hnone⟩
    · rw [← hfeed]
      conv_lhs => unfold feed_lines
      rw [hpl]
    · rw [hevals, hh.1, hsid, hns]

/-- Witness of `feed_lines_dispatches_once`: the expression `(+ 1`, newline,
` 2)` is fed to the local session in two fragments. -/
theorem feed_lines_dispatches_once_witness :
    ∃ repl' w', feed_lines sample_externs sample_config 1 ["(+ 1", " 2)"] make_repl
        sample_world = .ok (.returned false, repl', w') ∧
      w'.evals = sample_world.evals ++ [⟨join_lines ["(+ 1", " 2)"], make_repl.current_ns,
        if make_repl.session_id = 0 then sample_config.theme else "dumb",
        make_repl.session_id⟩] ∧
      repl'.input = none :=
  feed_lines_dispatches_once sample_externs sample_config 0 make_repl sample_world "(+ 1"
    [" 2)"] rfl
    ⟨⟨'(', ['+', ' ', '1', '\n', ' ', '2', ')'], rfl, by decide⟩, by decide,
      fun p q h => by
        have hp : p = "(+ 1" :=
          line_prefix_unique "(+ 1" " 2)" p q (by decide) (by decide) h
        rw [hp]
        decide⟩
    (by decide)
    (fun p q h => by
      have hp : p = "(+ 1" :=
        line_prefix_unique "(+ 1" " 2)" p q (by decide) (by decide) h
      rw [hp]
      decide)
    (by decide)

/-! ## The raw-line count -/

/-- A call of `process_line` that returns `false` either consumed nothing, and
then the raw-line count grew by one, or consumed a prefix, and then it is zero. -/
theorem process_line_count {σ : Type} (X : Externs σ) (config : Config) (fuel : Nat)
    (repl repl' : repl_t) (w w' : World σ) (line : String) (split : Bool)
    (h : process_line X config fuel repl w line split = .ok (.returned false, repl', w')) :
    (w'.evals = w.evals ∧ w'.engine_out = w.engine_out ∧
      repl'.num_previous_lines = repl.num_previous_lines + 1) ∨
    (w.evals.length + w.engine_out.length < w'.evals.length + w'.engine_out.length ∧
      repl'.num_previous_lines = 0) := by
  cases hk : is_exit_command (joined_input repl.input line) (repl.session_id != 0)
  · rw [process_line_no_keyword X config fuel repl w line split hk] at h
    have hr := process_loop_result X config fuel _ _ _ _ _ h
    have hh := add_to_history_evals (accumulate repl line) (joined_input repl.input line)
      line split w
    rcases hr.2.2.2.2.2.2.2 rfl with ⟨hw, hn⟩ | ⟨hlt, hn⟩
    · left
      rw [hw, hn]
      exact ⟨hh.1, hh.2.1, rfl⟩
    · right
      rw [hh.1, hh.2.1] at hlt
      exact ⟨hlt, hn⟩
  · rw [process_line_exit_keyword X config fuel repl w line split hk] at h
    split at h <;> simp at h

/-- C7, as stated, fails.  On a fresh local session a blank line is answered by
a newline and the raw-line count returns to zero although nothing was sent to
the evaluator; after the evaluation of `(exit 1)` the call returns `true` with
the count still at one; and the line `(a) (b` makes the call return `false`
with the buffer ` (b` pending and the count at zero, not one more than before. -/
theorem num_previous_lines_resets_without_dispatch :
    (∃ repl' w', process_line sample_externs sample_config 1 make_repl sample_world "" false =
        .ok (.returned false, repl', w') ∧
      w'.evals = [] ∧ w'.engine_out = ["\n"] ∧ repl'.num_previous_lines = 0) ∧
    (∃ repl' w', process_line sample_externs sample_config 1 make_repl sample_world "(exit 1)"
        false = .ok (.returned true, repl', w') ∧
      w'.evals = [⟨"(exit 1)", "cljs.user", "light", 0⟩] ∧ repl'.num_previous_lines = 1) ∧
    (∃ repl' w', process_line sample_externs sample_config 2 make_repl sample_world "(a) (b"
        false = .ok (.returned false, repl', w') ∧
      repl'.input = some " (b" ∧ make_repl.num_previous_lines = 0 ∧
      repl'.num_previous_lines = 0) :=
  ⟨⟨_, _, rfl, rfl, rfl, rfl⟩, ⟨_, _, rfl, rfl, rfl⟩, ⟨_, _, rfl, rfl, rfl, rfl⟩⟩

/-- C7, amended: in every session state reached from a fresh session by calls
of `process_line` that return `false` and by Ctrl-C resets, `num_previous_lines`
is the number of lines appended since the most recent reset, a reset being a
Ctrl-C or a call that consumed a readable prefix (evaluated it, or answered a
blank one by a newline).  It is zero after a Ctrl-C and after a call that
consumed a prefix, and one more than before after a call that consumed none. -/
theorem num_previous_lines_counts_appended {σ : Type} (X : Externs σ) (config : Config)
    (repl : repl_t) (n : Nat) (h : Reached X config repl n) :
    repl.num_previous_lines = n ∧
    (ctrl_c_reset config repl).num_previous_lines = 0 ∧
    (∀ (fuel : Nat) (w w' : World σ) (line : String) (split : Bool) (repl' : repl_t),
      process_line X config fuel repl w line split = .ok (.returned false, repl', w') →
      (w'.evals = w.evals → w'.engine_out = w.engine_out →
        repl'.num_previous_lines = n + 1) ∧
      (w'.evals ≠ w.evals ∨ w'.engine_out ≠ w.engine_out → repl'.num_previous_lines = 0)) := by
  have hstep : ∀ (r r' : repl_t) (m fuel : Nat) (w w' : World σ) (line : String)
      (split : Bool), r.num_previous_lines = m →
      process_line X config fuel r w line split = .ok (.returned false, r', w') →
      (w'.evals = w.evals → w'.engine_out = w.engine_out → r'.num_previous_lines = m + 1) ∧
      (w'.evals ≠ w.evals ∨ w'.engine_out ≠ w.engine_out → r'.num_previous_lines = 0) := by
    intro r r' m fuel w w' line split hm hcall
    rcases process_line_count X config fuel r r' w w' line split hcall with
      ⟨he, ho, hn⟩ | ⟨hlt, hn⟩
    · refine ⟨fun _ _ => by rw [hn, hm], ?_⟩
      rintro (hne | hne)
      · exact absurd he hne
      · exact absurd ho hne
    · refine ⟨fun he ho => ?_, fun _ => hn⟩
      rw [he, ho] at hlt
      exact absurd hlt (lt_irrefl _)
  have hcount : repl.num_previous_lines = n := by
    induction h with
    | fresh repl h => exact h
    | interrupt repl n _ _ => rfl
    | appended repl repl' n fuel w w' line split _ hcall hevals hout ih =>
      exact (hstep repl repl' n fuel w w' line split ih hcall).1 hevals hout
    | consumed repl repl' n fuel w w' line split _ hcall hreset ih =>
      exact (hstep repl repl' n fuel w w' line split ih hcall).2 hreset
  refine ⟨hcount, rfl, ?_⟩
  intro fuel w w' line split repl' hcall
  exact hstep repl repl' n fuel w w' line split hcount hcall

/-- Witness of `num_previous_lines_counts_appended`: the local session after the
incomplete line `(+ 1`. -/
theorem num_previous_lines_counts_appended_witness :
    (need_more_input sample_externs sample_config (accumulate make_repl "(+ 1") "(+ 1"
      sample_world).num_previous_lines = 1 :=
  (num_previous_lines_counts_appended sample_externs sample_config
    (need_more_input sample_externs sample_config (accumulate make_repl "(+ 1") "(+ 1"
      sample_world) 1
    (Reached.appended make_repl _ 0 1 sample_world sample_world "(+ 1" false
      (Reached.fresh make_repl rfl) rfl rfl rfl)).1

/-! ## Exit keywords on a connection -/

/-- C8, as stated, fails for LF-terminated data: a remote session without
pending buffer receives `"quit\n"`; nothing is cut off, the buffer `"quit\n"`
is no exit keyword, the reader finds the form `quit`, which is evaluated, and
the call answers with the prompt and `close = false`. -/
theorem socket_exit_keyword_lf_not_closed :
    trim_crlf "quit\n" = "quit\n" ∧
    is_exit_command "quit\n" true = false ∧
    ∃ repl' w', socket_repl_data_arrived sample_externs sample_config 1 (some "quit\n") 7
        sample_remote sample_world = .ok (.returned ⟨0, false⟩, repl', w') ∧
      w'.evals = [⟨"quit", "cljs.user", "dumb", 1⟩] ∧
      w'.socket_out = [(7, "cljs.user=> ")] :=
  ⟨by decide, by decide, _, _, rfl, rfl, rfl⟩

/-- C8, amended: for a remote session without pending buffer, when
`socket_repl_data_arrived` receives an exit keyword (`":cljs/quit"`, `"quit"`,
`"exit"` or `":repl/quit"`) terminated by CRLF, the terminator is cut off, the
line that reaches the accumulator is the keyword, the result has
`close = true`, and nothing is written to the connection. -/
theorem socket_exit_keyword_crlf_closes {σ : Type} (X : Externs σ) (config : Config)
    (fuel : Nat) (repl : repl_t) (w : World σ) (sock : Int) (keyword : String)
    (hremote : repl.session_id ≠ 0) (hbuf : repl.input = none)
    (hkw : keyword = ":cljs/quit" ∨ keyword = "quit" ∨ keyword = "exit" ∨
      keyword = ":repl/quit") :
    trim_crlf (keyword ++ "\r\n") = keyword ∧
    ∃ w', socket_repl_data_arrived X config fuel (some (keyword ++ "\r\n")) sock repl w =
        .ok (.returned ⟨0, true⟩, accumulate repl keyword, w') ∧
      (accumulate repl keyword).input = some keyword ∧
      (accumulate repl keyword).previous_lines = repl.previous_lines ++ [keyword] ∧
      w'.socket_out = w.socket_out ∧ w'.evals = w.evals := by
  have htrim : trim_crlf (keyword ++ "\r\n") = keyword := by
    rcases hkw with h | h | h | h <;> subst h <;> decide
  have hexit : is_exit_command (joined_input repl.input keyword) (repl.session_id != 0)
      = true := by
    have hflag : (repl.session_id != 0) = true := by simpa using hremote
    rw [hbuf, hflag]
    rcases hkw with h | h | h | h <;> subst h <;> decide
  refine ⟨htrim, clear_route (route_to_socket sock w), ?_, ?_, rfl, rfl, rfl⟩
  · simp only [socket_repl_data_arrived, htrim]
    rw [process_line_exit_keyword X config fuel repl (route_to_socket sock w) keyword false
      hexit]
    simp [hremote]
  · simp [accumulate, hbuf, joined_input]

/-- Witness of `socket_exit_keyword_crlf_closes`: `":repl/quit"` with CRLF on a
remote session. -/
theorem socket_exit_keyword_crlf_closes_witness :
    trim_crlf (":repl/quit" ++ "\r\n") = ":repl/quit" ∧
    ∃ w', socket_repl_data_arrived sample_externs sample_config 1
        (some (":repl/quit" ++ "\r\n")) 7 sample_remote sample_world =
        .ok (.returned ⟨0, true⟩, accumulate sample_remote ":repl/quit", w') ∧
      (accumulate sample_remote ":repl/quit").input = some ":repl/quit" ∧
      (accumulate sample_remote ":repl/quit").previous_lines =
        sample_remote.previous_lines ++ [":repl/quit"] ∧
      w'.socket_out = sample_world.socket_out ∧ w'.evals = sample_world.evals :=
  socket_exit_keyword_crlf_closes sample_externs sample_config 1 sample_remote sample_world 7
    ":repl/quit" (by decide) rfl (Or.inr (Or.inr (Or.inr rfl)))

/-! ## Bracket highlighting -/

theorem cursor_delta_append (a b : List TermOut) :
    cursor_delta (a ++ b) =
      ((cursor_delta a).1 + (cursor_delta b).1, (cursor_delta a).2 + (cursor_delta b).2) := by
  induction a with
  | nil => simp [cursor_delta]
  | cons x a ih =>
    cases x with
    | flush => simpa [cursor_delta] using ih
    | csi n c =>
      have h1 : (cursor_delta (a.append b)).1 = (cursor_delta a).1 + (cursor_delta b).1 :=
        congrArg Prod.fst ih
      have h2 : (cursor_delta (a.append b)).2 = (cursor_delta a).2 + (cursor_delta b).2 :=
        congrArg Prod.snd ih
      simp only [List.cons_append, cursor_delta]
      split_ifs <;> first
        | exact ih
        | (simp only [Prod.mk.injEq]; constructor <;> omega)

theorem emit_hop_spec (up horiz : Int) (t : Terminal) :
    ∃ hop, emit_hop up horiz t = { t with stdout := t.stdout ++ hop ++ [TermOut.flush] } ∧
      cursor_delta hop = (-up, horiz) := by
  unfold emit_hop
  by_cases hu : up = 0 <;> rcases lt_trichotomy horiz 0 with hh | hh | hh
  · exact ⟨[TermOut.csi (-horiz) 'D'], by simp [hu, hh], by simp [cursor_delta, hu]⟩
  · exact ⟨[], by simp [hu, hh], by simp [cursor_delta, hu, hh]⟩
  · exact ⟨[TermOut.csi horiz 'C'], by simp [hu, hh, not_lt_of_gt hh],
      by simp [cursor_delta, hu]⟩
  · exact ⟨[TermOut.csi up 'A', TermOut.csi (-horiz) 'D'], by simp [hu, hh],
      by simp [cursor_delta]⟩
  · exact ⟨[TermOut.csi up 'A'], by simp [hu, hh], by simp [cursor_delta, hh]⟩
  · exact ⟨[TermOut.csi up 'A', TermOut.csi horiz 'C'], by simp [hu, hh, not_lt_of_gt hh],
      by simp [cursor_delta]⟩

theorem emit_restore_spec (data : hl_restore_t) (t : Terminal) :
    ∃ moves, emit_restore data t =
        { t with stdout := t.stdout ++ moves ++ [TermOut.flush] } ∧
      cursor_delta moves = (data.num_lines_up, -data.relative_horiz) := by
  unfold emit_restore
  by_cases hu : data.num_lines_up = 0 <;> rcases lt_trichotomy data.relative_horiz 0 with hh | hh | hh
  · exact ⟨[TermOut.csi (-data.relative_horiz) 'C'], by simp [hu, hh],
      by simp [cursor_delta, hu]⟩
  · exact ⟨[], by simp [hu, hh], by simp [cursor_delta, hu, hh]⟩
  · exact ⟨[TermOut.csi data.relative_horiz 'D'], by simp [hu, hh, not_lt_of_gt hh],
      by simp [cursor_delta, hu]⟩
  · exact ⟨[TermOut.csi data.num_lines_up 'B', TermOut.csi (-data.relative_horiz) 'C'],
      by simp [hu, hh], by simp [cursor_delta]⟩
  · exact ⟨[TermOut.csi data.num_lines_up 'B'], by simp [hu, hh],
      by simp [cursor_delta, hh]⟩
  · exact ⟨[TermOut.csi data.num_lines_up 'B', TermOut.csi data.relative_horiz 'D'],
      by simp [hu, hh, not_lt_of_gt hh], by simp [cursor_delta]⟩

/-- A call of `highlight` that returns either changed nothing or hopped and
scheduled one restoration. -/
theorem highlight_result (E : HlExterns) (s_repl : repl_t) (buf : String) (pos : Nat)
    (t t' : Terminal) (h : highlight E s_repl buf pos t = .ok t') :
    t' = t ∨ ∃ up horiz, t' = schedule_restore up horiz (emit_hop up horiz t) := by
  unfold highlight at h
  split at h
  · simp at h
  · simp only at h
    split at h
    · split at h
      · split at h
        · simp at h
        · split at h
          · simp at h
          · split at h
            · left; simp only [Except.ok.injEq] at h; exact h.symm
            · right; simp only [Except.ok.injEq] at h; exact ⟨_, _, h.symm⟩
      · left; simp only [Except.ok.injEq] at h; exact h.symm
    · left; simp only [Except.ok.injEq] at h; exact h.symm

theorem int_wrap_succ_ne (x : Int) : int_wrap (x + 1) ≠ x ∧ int_wrap (int_wrap (x + 1) + 1) ≠ x
    ∧ int_wrap (int_wrap (x + 1) + 1) ≠ int_wrap (x + 1) := by
  unfold int_wrap
  refine ⟨?_, ?_, ?_⟩ <;> omega

theorem schedule_restore_ne (up horiz : Int) (t s : Terminal) (hs : s.timers = t.timers) :
    schedule_restore up horiz s ≠ t := by
  intro h
  have := congrArg (fun x => x.timers.length) h
  simp [schedule_restore, hs] at this

/-- A call of `highlight` that scheduled the restoration `r`: it wrote a hop
whose displacement is that of `r`, stamped `r` with the next counter value, and
left the counter at that value. -/
theorem highlight_issued (E : HlExterns) (s_repl : repl_t) (buf : String) (pos : Nat)
    (t t' : Terminal) (r : hl_restore_t) (h : highlight E s_repl buf pos t = .ok t')
    (hs : t'.timers = t.timers ++ [(500, r)]) :
    ∃ hop, t' = Terminal.mk (int_wrap (t.highlight_restore_sequence + 1)) r
        (t.stdout ++ hop ++ [TermOut.flush]) (t.timers ++ [(500, r)]) ∧
      r.id = int_wrap (t.highlight_restore_sequence + 1) ∧
      cursor_delta hop = (-r.num_lines_up, r.relative_horiz) := by
  rcases highlight_result E s_repl buf pos t t' h with heq | ⟨up, horiz, heq⟩
  · rw [heq] at hs
    have := congrArg List.length hs
    simp at this
  · obtain ⟨hop, hhop, hdelta⟩ := emit_hop_spec up horiz t
    rw [hhop] at heq
    have ht : t'.timers = t.timers ++
        [(500, ⟨int_wrap (t.highlight_restore_sequence + 1), up, horiz⟩)] := by
      rw [heq]; rfl
    rw [ht] at hs
    have hr : r = ⟨int_wrap (t.highlight_restore_sequence + 1), up, horiz⟩ := by
      have := List.append_cancel_left hs
      simp only [List.cons.injEq, Prod.mk.injEq, and_true, true_and] at this
      exact this.symm
    refine ⟨hop, ?_, ?_, ?_⟩
    · rw [heq, hr]; rfl
    · rw [hr]
    · rw [hr]; exact hdelta

/-- C4: when two calls of `highlight` each schedule a restoration, `r1` then
`r2`, before any callback runs, then in either firing order of the two
callbacks of `do_highlight_restore` the earlier request `r1` changes nothing
and the later request `r2` is the one executed: it advances the counter and
writes, then flushes, the movement inverse to the hop of its own `highlight`
call.  The same holds when the callbacks interleave: whichever counter value
`r1` has read, before or after the restoration of `r2`, it does nothing. -/
theorem later_highlight_request_restores (E1 E2 : HlExterns) (repl1 repl2 : repl_t)
    (buf1 buf2 : String) (pos1 pos2 : Nat) (t0 t1 t2 : Terminal) (r1 r2 : hl_restore_t)
    (h1 : highlight E1 repl1 buf1 pos1 t0 = .ok t1)
    (hs1 : t1.timers = t0.timers ++ [(500, r1)])
    (h2 : highlight E2 repl2 buf2 pos2 t1 = .ok t2)
    (hs2 : t2.timers = t1.timers ++ [(500, r2)]) :
    r1.id = int_wrap (t0.highlight_restore_sequence + 1) ∧
    r2.id = int_wrap (r1.id + 1) ∧
    do_highlight_restore r1 t2 = t2 ∧
    do_highlight_restore r2 (do_highlight_restore r1 t2) = do_highlight_restore r2 t2 ∧
    do_highlight_restore r1 (do_highlight_restore r2 t2) = do_highlight_restore r2 t2 ∧
    (∃ hop moves, t2.stdout = t1.stdout ++ hop ++ [TermOut.flush] ∧
      do_highlight_restore r2 t2 = { t2 with
        highlight_restore_sequence := int_wrap (r2.id + 1),
        stdout := t2.stdout ++ moves ++ [TermOut.flush] } ∧
      cursor_delta (hop ++ moves) = (0, 0)) ∧
    (∀ s : Terminal, restore_if_current r1 t2.highlight_restore_sequence s = s) ∧
    (∀ s : Terminal,
      restore_if_current r1 (do_highlight_restore r2 t2).highlight_restore_sequence s = s) := by
  obtain ⟨hop1, ht1, hid1, -⟩ := highlight_issued E1 repl1 buf1 pos1 t0 t1 r1 h1 hs1
  obtain ⟨hop2, ht2, hid2, hd2⟩ := highlight_issued E2 repl2 buf2 pos2 t1 t2 r2 h2 hs2
  have hseq1 : t1.highlight_restore_sequence = r1.id := by rw [hid1, ht1]
  have hseq2 : t2.highlight_restore_sequence = r2.id := by rw [hid2, ht2]
  rw [hseq1] at hid2
  have hne := int_wrap_succ_ne r1.id
  have h12 : r1.id ≠ r2.id := by rw [hid2]; exact fun h => hne.1 h.symm
  have h13 : r1.id ≠ int_wrap (r2.id + 1) := by rw [hid2]; exact fun h => hne.2.1 h.symm
  obtain ⟨moves, hmoves, hdm⟩ := emit_restore_spec r2
    { t2 with highlight_restore_sequence := int_wrap (t2.highlight_restore_sequence + 1) }
  have hdo2 : do_highlight_restore r2 t2 = { t2 with
      highlight_restore_sequence := int_wrap (r2.id + 1),
      stdout := t2.stdout ++ moves ++ [TermOut.flush] } := by
    simp only [do_highlight_restore, restore_if_current, hseq2, if_true]
    rw [← hseq2, hmoves]
  have hnoop : ∀ (v : Int) (s : Terminal), r1.id ≠ v → restore_if_current r1 v s = s := by
    intro v s hv
    simp [restore_if_current, hv]
  have hdo1 : do_highlight_restore r1 t2 = t2 := by
    unfold do_highlight_restore
    exact hnoop _ _ (by rw [hseq2]; exact h12)
  have hseq3 : (do_highlight_restore r2 t2).highlight_restore_sequence =
      int_wrap (r2.id + 1) := by rw [hdo2]
  refine ⟨hid1, hid2, hdo1, by rw [hdo1], ?_, ⟨hop2, moves, by rw [ht2], hdo2, ?_⟩, ?_, ?_⟩
  · exact hnoop (do_highlight_restore r2 t2).highlight_restore_sequence
      (do_highlight_restore r2 t2) (by rw [hseq3]; exact h13)
  · rw [cursor_delta_append, hd2, hdm]
    simp
  · intro s
    exact hnoop _ _ (by rw [hseq2]; exact h12)
  · intro s
    exact hnoop _ _ (by rw [hseq3]; exact h13)

/-- Witness of `later_highlight_request_restores`: `)` is typed twice after
`(a`, and both calls of `highlight` schedule a restoration. -/
theorem later_highlight_request_restores_witness :
    do_highlight_restore ⟨1, 0, -2⟩
      ⟨2, ⟨2, 0, -3⟩, [TermOut.csi 2 'D', TermOut.flush, TermOut.csi 3 'D', TermOut.flush],
        [(500, ⟨1, 0, -2⟩), (500, ⟨2, 0, -3⟩)]⟩ =
      ⟨2, ⟨2, 0, -3⟩, [TermOut.csi 2 'D', TermOut.flush, TermOut.csi 3 'D', TermOut.flush],
        [(500, ⟨1, 0, -2⟩), (500, ⟨2, 0, -3⟩)]⟩ :=
  (later_highlight_request_restores sample_hl_externs sample_hl_externs sample_local
    sample_local "(a)" "(a))" 2 3 sample_terminal
    ⟨1, ⟨1, 0, -2⟩, [TermOut.csi 2 'D', TermOut.flush], [(500, ⟨1, 0, -2⟩)]⟩
    ⟨2, ⟨2, 0, -3⟩, [TermOut.csi 2 'D', TermOut.flush, TermOut.csi 3 'D', TermOut.flush],
      [(500, ⟨1, 0, -2⟩), (500, ⟨2, 0, -3⟩)]⟩
    ⟨1, 0, -2⟩ ⟨2, 0, -3⟩ rfl rfl rfl rfl).2.2.1

set_option maxRecDepth 8000 in
/-- C9, as stated, fails.  On a terminal of width `80` with the prompt
`"cljs.user=> "` (12 characters) and a closing bracket at position `220` whose
match is found, the cursor column `220 + 1 + 12 + 1 = 234` does not exceed
`3 * 80 = 240`, yet `highlight` skips the hop: nothing is written, no id is
issued, no timer is started. -/
theorem highlight_skips_below_three_widths :
    sample_long_line.data.getD 220 (Char.ofNat 0) = ')' ∧
    (sample_hl_externs.highlight_coords_for_pos 220 sample_long_line
      sample_local.num_previous_lines sample_local.previous_lines (-1, 0)).1 ≠ -1 ∧
    ((220 : Int) + 1 + ("cljs.user=> ").length + 1 ≤ 3 * terminal_width sample_hl_externs) ∧
    highlight sample_hl_externs sample_local sample_long_line 220 sample_terminal =
      .ok sample_terminal := by
  refine ⟨by decide, by decide, by decide, rfl⟩

/-- C9, amended: when the character at the cursor is a closing bracket, its
match is found, the prompt is present and the terminal width is positive,
`highlight` returns, and it skips the hop (nothing written, no id issued, no
timer started: the state is unchanged) exactly when
`cursor_absolute_pos = pos + 1 + prompt_length + 1` exceeds
`3 * terminal_width - prompt_length`; for every smaller column it writes the
hop and flushes, issues the next id and schedules one restoration with that id
after `500` ms. -/
theorem highlight_skips_beyond_threshold (E : HlExterns) (s_repl : repl_t) (buf : String)
    (pos : Nat) (t : Terminal) (prompt : String)
    (hpos : pos ≤ buf.length)
    (hbracket : buf.data.getD pos (Char.ofNat 0) = ']' ∨
      buf.data.getD pos (Char.ofNat 0) = '}' ∨ buf.data.getD pos (Char.ofNat 0) = ')')
    (hmatch : (E.highlight_coords_for_pos pos buf s_repl.num_previous_lines
      s_repl.previous_lines (-1, 0)).1 ≠ -1)
    (hprompt : s_repl.current_prompt = some prompt)
    (hwidth : 0 < terminal_width E) :
    ∃ t', highlight E s_repl buf pos t = .ok t' ∧
      (t' = t ↔ (pos : Int) + 1 + prompt.length + 1 > 3 * terminal_width E - prompt.length) ∧
      ((pos : Int) + 1 + prompt.length + 1 ≤ 3 * terminal_width E - prompt.length →
        ∃ r hop, t'.stdout = t.stdout ++ hop ++ [TermOut.flush] ∧
          t'.highlight_restore_sequence = int_wrap (t.highlight_restore_sequence + 1) ∧
          r.id = t'.highlight_restore_sequence ∧ t'.hl_restore = r ∧
          t'.timers = t.timers ++ [(500, r)]) := by
  have hb : (buf.data.getD pos (Char.ofNat 0) = ']' || buf.data.getD pos (Char.ofNat 0) = '}'
      || buf.data.getD pos (Char.ofNat 0) = ')') = true := by
    rcases hbracket with h | h | h <;> rw [h] <;> decide
  have hw0 : terminal_width E ≠ 0 := ne_of_gt hwidth
  by_cases hskip : (pos : Int) + 1 + prompt.length + 1 > 3 * terminal_width E - prompt.length
  · refine ⟨t, ?_, ?_, ?_⟩
    · simp only [highlight, not_lt.mpr hpos, if_false, hb, if_true, hmatch, ne_eq,
        not_false_eq_true, hprompt, hw0, and_false, hskip]
    · simp [hskip]
    · intro hle
      exact absurd hskip (not_lt.mpr hle)
  · obtain ⟨up, horiz, hadj⟩ : ∃ up horiz,
        wrap_adjust (terminal_width E) ((pos : Int) + 1 + prompt.length + 1)
          ((E.highlight_coords_for_pos pos buf s_repl.num_previous_lines
            s_repl.previous_lines (-1, 0)).2 + prompt.length)
          (E.highlight_coords_for_pos pos buf s_repl.num_previous_lines
            s_repl.previous_lines (-1, 0)).1
          ((E.highlight_coords_for_pos pos buf s_repl.num_previous_lines
            s_repl.previous_lines (-1, 0)).2 - ((pos : Int) + 1)) = (up, horiz) :=
      ⟨_, _, rfl⟩
    obtain ⟨hop, hhop, -⟩ := emit_hop_spec up horiz t
    refine ⟨schedule_restore up horiz (emit_hop up horiz t), ?_, ?_, ?_⟩
    · simp only [highlight, not_lt.mpr hpos, if_false, hb, if_true, hmatch, ne_eq,
        not_false_eq_true, hprompt, hw0, and_false, hskip, hadj]
    · constructor
      · intro h
        exact absurd h (schedule_restore_ne _ _ _ _ (by rw [hhop]))
      · intro h
        exact absurd h hskip
    · intro _
      refine ⟨⟨int_wrap (t.highlight_restore_sequence + 1), up, horiz⟩, hop, ?_, ?_, ?_, ?_, ?_⟩
        <;> simp only [schedule_restore, hhop]

/-- Witness of `highlight_skips_beyond_threshold`: the closing bracket of `(a)`
typed behind the prompt `"cljs.user=> "` on a terminal of width `80`. -/
theorem highlight_skips_beyond_threshold_witness :
    ∃ t', highlight sample_hl_externs sample_local "(a)" 2 sample_terminal = .ok t' ∧
      (t' = sample_terminal ↔ ((2 : Nat) : Int) + 1 + ("cljs.user=> ").length + 1 >
        3 * terminal_width sample_hl_externs - ("cljs.user=> ").length) ∧
      (((2 : Nat) : Int) + 1 + ("cljs.user=> ").length + 1 ≤
          3 * terminal_width sample_hl_externs - ("cljs.user=> ").length →
        ∃ r hop, t'.stdout = sample_terminal.stdout ++ hop ++ [TermOut.flush] ∧
          t'.highlight_restore_sequence =
            int_wrap (sample_terminal.highlight_restore_sequence + 1) ∧
          r.id = t'.highlight_restore_sequence ∧ t'.hl_restore = r ∧
          t'.timers = sample_terminal.timers ++ [(500, r)]) :=
  highlight_skips_beyond_threshold sample_hl_externs sample_local "(a)" 2 sample_terminal
    "cljs.user=> " (by decide) (Or.inr (Or.inr (by decide))) (by decide) rfl (by decide)

/-! ## Termination of the dispatch loop -/

theorem process_loop_succ {σ : Type} (X : Externs σ) (config : Config) (fuel : Nat)
    (repl : repl_t) (w : World σ) :
    process_loop X config (fuel + 1) repl w =
      match process_loop_iteration X config repl w with
      | .finished out repl' w' => .ok (out, repl', w')
      | .again repl' w' => process_loop X config fuel repl' w'
      | .fault f => .error f := by
  conv_lhs => unfold process_loop
  unfold process_loop_iteration
  cases hin : repl.input with
  | none => rfl
  | some input =>
    simp only
    cases hread : X.is_readable input with
    | none => rfl
    | some balance_text =>
      simp only
      by_cases hlen : balance_text.length ≤ input.length
      · simp only [hlen, if_true]
        split
        · split
          · rfl
          · split <;> rfl
        · split <;> rfl
      · simp only [hlen, if_false]

theorem is_whitespace_of_suffix (rest buf : String) (h : rest.data <:+ buf.data)
    (hb : is_whitespace buf = true) : is_whitespace rest = true := by
  unfold is_whitespace at hb ⊢
  rw [List.all_eq_true] at hb ⊢
  intro c hc
  exact hb c (h.subset hc)

theorem str_truncate_length_pos (s : String) (n : Nat)
    (h : is_whitespace (str_truncate s n) = false) : 0 < n := by
  rcases Nat.eq_zero_or_pos n with h0 | h0
  · rw [h0] at h
    simp [str_truncate, is_whitespace] at h
  · exact h0

/-- Under the reader's contract one iteration never faults; when it ends the
call, at most as many evaluations as the buffer has characters were added and
a `false` result leaves the buffer absent or unreadable; when the loop goes
round again, the new buffer is not blank and strictly shorter, and what was
evaluated is paid for by the characters consumed. -/
theorem process_loop_iteration_spec {σ : Type} (X : Externs σ) (config : Config)
    (hpre : leftover_is_suffix X.is_readable) (repl : repl_t) (w : World σ) (input : String)
    (hin : repl.input = some input) :
    (∀ f, process_loop_iteration X config repl w ≠ .fault f) ∧
    (∀ out repl' w', process_loop_iteration X config repl w = .finished out repl' w' →
      w'.evals.length ≤ w.evals.length + input.length ∧
      (out = .returned false →
        repl'.input = none ∨ ∃ b, repl'.input = some b ∧ X.is_readable b = none)) ∧
    (∀ repl' w', process_loop_iteration X config repl w = .again repl' w' →
      ∃ rest, repl'.input = some rest ∧ is_whitespace rest = false ∧
        rest.length < input.length ∧
        w'.evals.length + rest.length ≤ w.evals.length + input.length) := by
  cases hread : X.is_readable input with
  | none =>
    have hit : process_loop_iteration X config repl w =
        .finished (.returned false) (need_more_input X config repl input w) w := by
      simp only [process_loop_iteration, hin, hread]
    rw [hit]
    refine ⟨fun f h => LoopStep.noConfusion h, ?_, fun r' w' h => LoopStep.noConfusion h⟩
    intro out r' w' h
    simp only [LoopStep.finished.injEq] at h
    obtain ⟨-, rfl, rfl⟩ := h
    refine ⟨Nat.le_add_right _ _, fun _ => Or.inr ⟨input, ?_, hread⟩⟩
    rw [(need_more_input_fields X config repl input w).1, hin]
  | some rest =>
    obtain ⟨hsuf, hshort⟩ := hpre input rest hread
    have hlen : rest.length ≤ input.length := hsuf.length_le
    by_cases hsrc : is_whitespace (str_truncate input (input.length - rest.length)) = true
    · -- blank prefix: a newline is printed, nothing is evaluated
      have hr := reset_for_next_round_fields X config
        { repl with input := some (str_truncate input (input.length - rest.length)) } rest
        { w with engine_out := w.engine_out ++ ["\n"] }
      by_cases hrest : is_whitespace rest = true
      · have hit : process_loop_iteration X config repl w = .finished (.returned false)
            { reset_for_next_round X config
                { repl with input := some (str_truncate input (input.length - rest.length)) }
                rest { w with engine_out := w.engine_out ++ ["\n"] } with input := none }
            { w with engine_out := w.engine_out ++ ["\n"] } := by
          simp only [process_loop_iteration, hin, hread, hlen, if_true, hsrc, hrest,
            Bool.not_true, Bool.false_eq_true, if_false]
        rw [hit]
        refine ⟨fun f h => LoopStep.noConfusion h, ?_, fun r' w' h => LoopStep.noConfusion h⟩
        intro out r' w' h
        simp only [LoopStep.finished.injEq] at h
        obtain ⟨-, rfl, rfl⟩ := h
        exact ⟨Nat.le_add_right _ _, fun _ => Or.inl rfl⟩
      · have hit : process_loop_iteration X config repl w = .again
            (reset_for_next_round X config
              { repl with input := some (str_truncate input (input.length - rest.length)) }
              rest { w with engine_out := w.engine_out ++ ["\n"] })
            { w with engine_out := w.engine_out ++ ["\n"] } := by
          simp only [process_loop_iteration, hin, hread, hlen, if_true, hsrc, hrest,
            Bool.not_true, Bool.false_eq_true, if_false]
        rw [hit]
        refine ⟨fun f h => LoopStep.noConfusion h, fun out r' w' h => LoopStep.noConfusion h, ?_⟩
        intro r' w' h
        simp only [LoopStep.again.injEq] at h
        obtain ⟨rfl, rfl⟩ := h
        have hrest' : is_whitespace rest = false := by simpa using hrest
        have hbuf : is_whitespace input = false := by
          cases hb : is_whitespace input
          · rfl
          · rw [is_whitespace_of_suffix rest input hsuf hb] at hrest'
            exact absurd hrest' (by decide)
        have hlt := hshort hbuf
        exact ⟨rest, hr.1, hrest', hlt, by simp only; omega⟩
    · -- non-blank prefix: it is evaluated
      have hsrc' : is_whitespace (str_truncate input (input.length - rest.length)) = false := by
        simpa using hsrc
      have hpos := str_truncate_length_pos input _ hsrc'
      have hlt : rest.length < input.length := by omega
      have hev := evaluate_input_fields X config
        { repl with input := some (str_truncate input (input.length - rest.length)) }
        (str_truncate input (input.length - rest.length)) w
      have hevl : (evaluate_input X config
          { repl with input := some (str_truncate input (input.length - rest.length)) }
          (str_truncate input (input.length - rest.length)) w).evals.length =
          w.evals.length + 1 := by
        rw [hev.1]; simp
      have hr := reset_for_next_round_fields X config
        { repl with input := some (str_truncate input (input.length - rest.length)) } rest
        (evaluate_input X config
          { repl with input := some (str_truncate input (input.length - rest.length)) }
          (str_truncate input (input.length - rest.length)) w)
      by_cases hexit : (evaluate_input X config
          { repl with input := some (str_truncate input (input.length - rest.length)) }
          (str_truncate input (input.length - rest.length)) w).exit_value = 0
      · by_cases hrest : is_whitespace rest = true
        · have hit : process_loop_iteration X config repl w = .finished (.returned false)
              { reset_for_next_round X config
                  { repl with input := some (str_truncate input (input.length - rest.length)) }
                  rest (evaluate_input X config
                    { repl with
                      input := some (str_truncate input (input.length - rest.length)) }
                    (str_truncate input (input.length - rest.length)) w) with input := none }
              (evaluate_input X config
                { repl with input := some (str_truncate input (input.length - rest.length)) }
                (str_truncate input (input.length - rest.length)) w) := by
            simp only [process_loop_iteration, hin, hread, hlen, if_true, hsrc', hrest, hexit,
              Bool.not_false, ne_eq, not_true_eq_false, if_false, Bool.false_eq_true]
          rw [hit]
          refine ⟨fun f h => LoopStep.noConfusion h, ?_, fun r' w' h => LoopStep.noConfusion h⟩
          intro out r' w' h
          simp only [LoopStep.finished.injEq] at h
          obtain ⟨-, rfl, rfl⟩ := h
          exact ⟨by rw [hevl]; omega, fun _ => Or.inl rfl⟩
        · have hit : process_loop_iteration X config repl w = .again
              (reset_for_next_round X config
                { repl with input := some (str_truncate input (input.length - rest.length)) }
                rest (evaluate_input X config
                  { repl with input := some (str_truncate input (input.length - rest.length)) }
                  (str_truncate input (input.length - rest.length)) w))
              (evaluate_input X config
                { repl with input := some (str_truncate input (input.length - rest.length)) }
                (str_truncate input (input.length - rest.length)) w) := by
            simp only [process_loop_iteration, hin, hread, hlen, if_true, hsrc', hrest, hexit,
              Bool.not_false, ne_eq, not_true_eq_false, if_false, Bool.false_eq_true]
          rw [hit]
          refine ⟨fun f h => LoopStep.noConfusion h, fun out r' w' h => LoopStep.noConfusion h, ?_⟩
          intro r' w' h
          simp only [LoopStep.again.injEq] at h
          obtain ⟨rfl, rfl⟩ := h
          exact ⟨rest, hr.1, by simpa using hrest, hlt, by rw [hevl]; omega⟩
      · have hit : process_loop_iteration X config repl w = .finished (.returned true)
            { repl with input := some (str_truncate input (input.length - rest.length)) }
            (evaluate_input X config
              { repl with input := some (str_truncate input (input.length - rest.length)) }
              (str_truncate input (input.length - rest.length)) w) := by
          simp only [process_loop_iteration, hin, hread, hlen, if_true, hsrc', hexit,
            Bool.not_false, ne_eq, not_false_eq_true]
        rw [hit]
        refine ⟨fun f h => LoopStep.noConfusion h, ?_, fun r' w' h => LoopStep.noConfusion h⟩
        intro out r' w' h
        simp only [LoopStep.finished.injEq] at h
        obtain ⟨rfl, rfl, rfl⟩ := h
        exact ⟨by rw [hevl]; omega, fun h => by cases h⟩

theorem length_pos_of_not_blank (s : String) (h : is_whitespace s = false) : 0 < s.length := by
  rcases s with ⟨l⟩
  cases l with
  | nil => simp [is_whitespace] at h
  | cons a l => simp [String.length]

/-- With the reader's contract the loop returns for every fuel above the
length of the buffer, after at most that many evaluations, and a `false`
result leaves the buffer absent or unreadable. -/
theorem process_loop_returns {σ : Type} (X : Externs σ) (config : Config)
    (hpre : leftover_is_suffix X.is_readable) :
    ∀ (fuel : Nat) (repl : repl_t) (w : World σ) (input : String),
      repl.input = some input → input.length < fuel →
      ∃ out repl' w', process_loop X config fuel repl w = .ok (out, repl', w') ∧
        w'.evals.length ≤ w.evals.length + input.length ∧
        (out = .returned false →
          repl'.input = none ∨ ∃ b, repl'.input = some b ∧ X.is_readable b = none) := by
  intro fuel
  induction fuel with
  | zero => intro repl w input _ h; exact absurd h (Nat.not_lt_zero _)
  | succ fuel ih =>
    intro repl w input hin hfuel
    obtain ⟨hfault, hfin, hagain⟩ := process_loop_iteration_spec X config hpre repl w input hin
    rw [process_loop_succ]
    cases hit : process_loop_iteration X config repl w with
    | finished out repl' w' =>
      exact ⟨out, repl', w', rfl, hfin out repl' w' hit⟩
    | again repl1 w1 =>
      obtain ⟨rest, hin1, -, hlt, hev⟩ := hagain repl1 w1 hit
      obtain ⟨out, repl', w', hrun, hbound, hexit⟩ := ih repl1 w1 rest hin1 (by omega)
      exact ⟨out, repl', w', hrun, by omega, hexit⟩
    | fault f => exact absurd hit (hfault f)

/-- A reader that returns the whole non-blank buffer as leftover keeps the loop
going: every round prints a newline and starts again from the same buffer, so
no amount of fuel produces a result. -/
theorem process_loop_stuck {σ : Type} (X : Externs σ) (config : Config) (buf : String)
    (hbuf : is_whitespace buf = false) (hread : X.is_readable buf = some buf) :
    ∀ (fuel : Nat) (repl : repl_t) (w : World σ), repl.input = some buf →
      process_loop X config fuel repl w = .error .out_of_fuel := by
  intro fuel
  induction fuel with
  | zero => intro repl w _; rfl
  | succ fuel ih =>
    intro repl w hin
    have hit : process_loop_iteration X config repl w = .again
        (reset_for_next_round X config { repl with input := some (str_truncate buf 0) } buf
          { w with engine_out := w.engine_out ++ ["\n"] })
        { w with engine_out := w.engine_out ++ ["\n"] } := by
      have hblank : is_whitespace (str_truncate buf 0) = true := by
        simp [str_truncate, is_whitespace]
      simp only [process_loop_iteration, hin, hread, le_refl, if_true, Nat.sub_self, hblank,
        Bool.not_true, Bool.false_eq_true, if_false, hbuf]
    rw [process_loop_succ, hit]
    exact ih _ _ (reset_for_next_round_fields X config _ buf _).1

theorem sample_scan_suffix : ∀ (l : List Char) (depth : Nat) (r : List Char),
    sample_scan depth l = some r → r <:+ l := by
  intro l
  induction l with
  | nil => intro depth r h; simp [sample_scan] at h
  | cons c rest ih =>
    intro depth r h
    unfold sample_scan at h
    split at h
    · exact (ih _ _ h).trans (List.suffix_cons c rest)
    · split at h
      · cases depth with
        | zero =>
          simp only [Option.some.injEq] at h
          rw [← h]
          exact List.suffix_cons c rest
        | succ d => exact (ih _ _ h).trans (List.suffix_cons c rest)
      · exact (ih _ _ h).trans (List.suffix_cons c rest)

/-- The sample reader keeps the reader's contract. -/
theorem sample_is_readable_contract : leftover_is_suffix sample_is_readable := by
  intro buf rest h
  have hlen : ∀ s : String, s.length = s.data.length := fun s => rfl
  unfold sample_is_readable at h
  split at h
  · simp only [Option.some.injEq] at h
    rw [← h]
    exact ⟨List.nil_suffix, fun hb => length_pos_of_not_blank buf hb⟩
  · rename_i c tl heq
    have hdrop : (c :: tl) <:+ buf.data := by
      rw [← heq]; exact List.dropWhile_suffix _
    have hshort : ∀ r : List Char, r <:+ tl →
        r <:+ buf.data ∧ (is_whitespace buf = false → (String.mk r).length < buf.length) := by
      intro r hr
      refine ⟨(hr.trans (List.suffix_cons c tl)).trans hdrop, fun _ => ?_⟩
      have h1 := hr.length_le
      have h2 := hdrop.length_le
      simp only [List.length_cons] at h2
      rw [hlen, hlen]
      show r.length < buf.data.length
      omega
    split at h
    · cases hs : sample_scan 0 tl with
      | none => rw [hs] at h; simp at h
      | some r =>
        rw [hs] at h
        simp only [Option.map_some', Option.some.injEq] at h
        rw [← h]
        exact hshort r (sample_scan_suffix tl 0 r hs)
    · simp only [Option.some.injEq] at h
      rw [← h]
      exact hshort _ (List.dropWhile_suffix _)

/-- C11, as stated, fails on two points.  The reader `overlong_externs` meets
the stated precondition (it reports no form in any non-blank buffer), yet on
the empty buffer its leftover `"x"` is longer than the buffer, the truncation
at line 182 writes outside it, and the loop has no result for any fuel.  And
with the sample reader, which keeps the full contract, the loop started on
`(exit 1)` ends by the return at line 207 with the buffer still set to the
form `(exit 1)`, which the reader reads as complete. -/
theorem process_loop_exit_buffer_not_absent :
    (∀ buf rest : String, is_whitespace buf = false →
      overlong_externs.is_readable buf = some rest →
      rest.data <:+ buf.data ∧ rest.length < buf.length) ∧
    (∀ fuel : Nat, process_line overlong_externs sample_config (fuel + 1) make_repl
      sample_world "" false = .error .undefined_behaviour) ∧
    leftover_is_suffix sample_externs.is_readable ∧
    (∃ repl' w', process_loop sample_externs sample_config 1
        (accumulate make_repl "(exit 1)") sample_world = .ok (.returned true, repl', w') ∧
      repl'.input = some "(exit 1)" ∧
      sample_externs.is_readable "(exit 1)" = some "") := by
  refine ⟨?_, fun fuel => rfl, sample_is_readable_contract, ⟨_, _, rfl, rfl, rfl⟩⟩
  intro buf rest hb h
  have hne : buf ≠ "" := by
    intro he
    rw [he] at hb
    exact absurd hb (by decide)
  simp [overlong_externs, hne] at h

/-- C11, amended: if the reader, whenever it reports a complete form, returns a
leftover that is a suffix of the buffer, and a strictly shorter one when the
buffer is not blank, then the dispatch loop of `process_line` terminates for
every input: every round that goes round again starts the next one with a
strictly shorter buffer; with any fuel above the length of the buffer the loop,
and the call of `process_line`, return, after at most as many evaluator calls
as the accumulated buffer has characters; and when the result is `false` the
pending buffer is absent or the reader reports no complete form in it.  With a
reader that returns the whole non-blank buffer as leftover the loop, and the
call of `process_line` on a buffer that is no exit keyword, have no result for
any fuel. -/
theorem process_loop_terminates {σ : Type} (X : Externs σ) (config : Config) :
    (leftover_is_suffix X.is_readable →
      (∀ (repl repl' : repl_t) (w w' : World σ) (input : String), repl.input = some input →
        process_loop_iteration X config repl w = .again repl' w' →
        ∃ rest, repl'.input = some rest ∧ rest.length < input.length) ∧
      (∀ (fuel : Nat) (repl : repl_t) (w : World σ) (input : String),
        repl.input = some input → input.length < fuel →
        ∃ out repl' w', process_loop X config fuel repl w = .ok (out, repl', w') ∧
          w'.evals.length ≤ w.evals.length + input.length ∧
          (out = .returned false →
            repl'.input = none ∨ ∃ b, repl'.input = some b ∧ X.is_readable b = none)) ∧
      (∀ (fuel : Nat) (repl : repl_t) (w : World σ) (line : String) (split : Bool),
        (joined_input repl.input line).length < fuel →
        ∃ out repl' w', process_line X config fuel repl w line split = .ok (out, repl', w') ∧
          w'.evals.length ≤ w.evals.length + (joined_input repl.input line).length ∧
          (out = .returned false →
            repl'.input = none ∨ ∃ b, repl'.input = some b ∧ X.is_readable b = none))) ∧
    (∀ buf : String, is_whitespace buf = false → X.is_readable buf = some buf →
      (∀ (fuel : Nat) (repl : repl_t) (w : World σ), repl.input = some buf →
        process_loop X config fuel repl w = .error .out_of_fuel) ∧
      (∀ (fuel : Nat) (repl : repl_t) (w : World σ) (line : String) (split : Bool),
        joined_input repl.input line = buf →
        is_exit_command buf (repl.session_id != 0) = false →
        process_line X config fuel repl w line split = .error .out_of_fuel)) := by
  refine ⟨fun hpre => ⟨?_, process_loop_returns X config hpre, ?_⟩, ?_⟩
  · intro repl repl' w w' input hin hit
    obtain ⟨rest, h1, -, h2, -⟩ :=
      (process_loop_iteration_spec X config hpre repl w input hin).2.2 repl' w' hit
    exact ⟨rest, h1, h2⟩
  · intro fuel repl w line split hfuel
    cases hk : is_exit_command (joined_input repl.input line) (repl.session_id != 0)
    · rw [process_line_no_keyword X config fuel repl w line split hk]
      obtain ⟨out, repl', w', hrun, hbound, hexit⟩ := process_loop_returns X config hpre fuel
        (accumulate repl line)
        (add_to_history (accumulate repl line) (joined_input repl.input line) line split w)
        (joined_input repl.input line) rfl hfuel
      rw [(add_to_history_evals _ _ _ _ _).1] at hbound
      exact ⟨out, repl', w', hrun, hbound, hexit⟩
    · rw [process_line_exit_keyword X config fuel repl w line split hk]
      refine ⟨_, _, _, rfl, Nat.le_add_right _ _, fun h => ?_⟩
      split at h <;> simp at h
  · intro buf hbuf hread
    refine ⟨process_loop_stuck X config buf hbuf hread, ?_⟩
    intro fuel repl w line split hj hk
    rw [process_line_no_keyword X config fuel repl w line split (by rw [hj]; exact hk)]
    exact process_loop_stuck X config buf hbuf hread fuel _ _ (by simp [accumulate, hj])

/-- Witness of `process_loop_terminates`: with the sample reader the line
`(a) (b) (c` returns with fuel `11`, and with the reader that consumes nothing
the line `x` has no result with fuel `5`. -/
theorem process_loop_terminates_witness :
    (∃ out repl' w', process_line sample_externs sample_config 11 make_repl sample_world
        "(a) (b) (c" false = .ok (out, repl', w') ∧
      w'.evals.length ≤ sample_world.evals.length +
        (joined_input make_repl.input "(a) (b) (c").length ∧
      (out = .returned false →
        repl'.input = none ∨
          ∃ b, repl'.input = some b ∧ sample_externs.is_readable b = none)) ∧
    process_line stuck_externs sample_config 5 make_repl sample_world "x" false =
      .error .out_of_fuel :=
  ⟨((process_loop_terminates sample_externs sample_config).1
      sample_is_readable_contract).2.2 11 make_repl sample_world "(a) (b) (c" false
      (by decide),
    ((process_loop_terminates stuck_externs sample_config).2 "x" (by decide) rfl).2 5
      make_repl sample_world "x" false rfl (by decide)⟩

end Planck
